import Mathlib

/-!
Verification of the clip-manager workflow extractor and classification
aggregator against their natural-language specification.

The extractor embedding follows `parseComfyUIWorkflow` in the metadata
extractor module (src/unnamed/part_000, second revision, lines 371-517).
The classifier embedding follows `classifyContent` in src/videoAnalysis.js
and `checkForIllegalContent` in src/unnamed/part_000 (lines 770-781).

JavaScript values are modelled by the inductive `JValue`; JS truthiness,
`typeof`, strict equality against primitive literals, property access and
`String.prototype.includes` / `Array.prototype.includes` are modelled by
executable functions.  Number formatting is modelled for integers (the only
numbers the analysed code paths stringify); JS reference equality between
distinct object literals is modelled as inequality.
-/

namespace ClipManager

/-- A JSON-like JavaScript value: undefined, null, booleans, (integer)
numbers, strings, arrays and plain objects. -/
inductive JValue where
  | vUndef : JValue
  | vNull : JValue
  | vBool (b : Bool) : JValue
  | vNum (n : Int) : JValue
  | vStr (s : String) : JValue
  | vArr (elems : List JValue) : JValue
  | vObj (fields : List (String × JValue)) : JValue

open JValue

/-- Property access `v.k`: objects look the key up, every other value
yields `undefined` for the property names used by the source. -/
def getProp : JValue → String → JValue
  | vObj kvs, k => ((kvs.find? (fun kv => kv.1 == k)).map Prod.snd).getD vUndef
  | _, _ => vUndef

/-- JS truthiness. -/
def truthyB : JValue → Bool
  | vUndef => false
  | vNull => false
  | vBool b => b
  | vNum n => n != 0
  | vStr s => s != ""
  | vArr _ => true
  | vObj _ => true

/-- JS `typeof`. -/
def typeofStr : JValue → String
  | vUndef => "undefined"
  | vNull => "object"
  | vBool _ => "boolean"
  | vNum _ => "number"
  | vStr _ => "string"
  | vArr _ => "object"
  | vObj _ => "object"

/-- Strict equality `v === s` against a string literal. -/
def isStrB : JValue → String → Bool
  | vStr t, s => t == s
  | _, _ => false

/-- Strict equality `v === false`. -/
def isFalseB : JValue → Bool
  | vBool false => true
  | _ => false

/-- Test for `undefined` (used by `inputs.seed !== undefined`). -/
def isUndefB : JValue → Bool
  | vUndef => true
  | _ => false

/-- JS `a || b` on values. -/
def jsOr (a b : JValue) : JValue :=
  if truthyB a then a else b

/-- JS SameValueZero between a value and a primitive, as used by
`Array.prototype.includes`; reference equality between distinct object
literals is modelled as false. -/
def jsPrimEq : JValue → JValue → Bool
  | vStr a, vStr b => a == b
  | vNum a, vNum b => a == b
  | vBool a, vBool b => a == b
  | vNull, vNull => true
  | vUndef, vUndef => true
  | _, _ => false

mutual

/-- JS ToString coercion as exercised by template literals and by the
argument of `String.prototype.includes` (integer number formatting). -/
def jsDisplay : JValue → String
  | vUndef => "undefined"
  | vNull => "null"
  | vBool true => "true"
  | vBool false => "false"
  | vNum n => toString n
  | vStr s => s
  | vArr xs => String.intercalate "," (jsDisplayList xs)
  | vObj _ => "[object Object]"

/-- Elements of an array under `Array.prototype.toString`: null and
undefined render as the empty string. -/
def jsDisplayList : List JValue → List String
  | [] => []
  | vNull :: vs => "" :: jsDisplayList vs
  | vUndef :: vs => "" :: jsDisplayList vs
  | v :: vs => jsDisplay v :: jsDisplayList vs

end

/-- Whether `needle` occurs as a contiguous infix of the character list. -/
def listInfixB (needle : List Char) : List Char → Bool
  | [] => needle.isEmpty
  | l@(_ :: rest) => needle.isPrefixOf l || listInfixB needle rest

/-- `hay.includes(needle)` for strings. -/
def strContains (hay needle : String) : Bool :=
  listInfixB needle.toList hay.toList

/-- `recv.includes(arg)`: substring test on strings, membership on arrays,
a TypeError (modelled as `.error`) on every other receiver. -/
def jsIncludes (recv arg : JValue) : Except Unit Bool :=
  match recv with
  | vStr s => .ok (strContains s (jsDisplay arg))
  | vArr xs => .ok (xs.any (fun x => jsPrimEq x arg))
  | _ => .error ()

/-- A name/strength pair pushed onto `parsed.loras`. -/
structure LoraEntry where
  name : JValue
  strength : JValue

/-- The flat record produced by `parseComfyUIWorkflow`; every member is
initialised to JS `null` (the `aspectRatio` key is absent until assigned,
modelled as `undefined`). -/
structure Parsed where
  prompt : JValue := vNull
  negativePrompt : JValue := vNull
  model : JValue := vNull
  loras : List LoraEntry := []
  steps : JValue := vNull
  cfg : JValue := vNull
  seed : JValue := vNull
  sampler : JValue := vNull
  scheduler : JValue := vNull
  resolution : JValue := vNull
  frameRate : JValue := vNull
  numFrames : JValue := vNull
  vaeModel : JValue := vNull
  clipModel : JValue := vNull
  aspectRatio : JValue := vUndef

/-- Branch for `CLIPTextEncode` nodes (extractor lines 401-409): with the
prompt still unset and a truthy text field, a string longer than 10 chars
containing neither negative marker becomes the prompt, else a string
containing the CJK marker becomes the negative prompt. -/
def stepCLIPText (ct inputs : JValue) (p : Parsed) : Parsed :=
  if isStrB ct "CLIPTextEncode" && truthyB (getProp inputs "text") && !truthyB p.prompt then
    match getProp inputs "text" with
    | vStr t =>
      if t.length > 10 && !strContains t "低质量" && !strContains t "worst quality" then
        { p with prompt := vStr t }
      else if strContains t "低质量" then
        { p with negativePrompt := vStr t }
      else p
    | _ => p
  else p

/-- Branch for `ImpactWildcardProcessor` (lines 412-414): unconditionally
overwrites the prompt with a truthy populated_text. -/
def stepWildcard (ct inputs : JValue) (p : Parsed) : Parsed :=
  if isStrB ct "ImpactWildcardProcessor" && truthyB (getProp inputs "populated_text") then
    { p with prompt := getProp inputs "populated_text" }
  else p

/-- Branch for `WanVideoModelLoader` (lines 417-421); the short-circuit
`!parsed.model || inputs.model.includes(..)` calls includes only when the
model is already set, and a non-string receiver throws. -/
def stepModelLoader (ct inputs : JValue) (p : Parsed) : Except Unit Parsed :=
  if isStrB ct "WanVideoModelLoader" && truthyB (getProp inputs "model") then
    if !truthyB p.model then .ok { p with model := getProp inputs "model" }
    else
      match jsIncludes (getProp inputs "model") (vStr "HIGH") with
      | .error e => .error e
      | .ok b => if b then .ok { p with model := getProp inputs "model" } else .ok p
  else .ok p

/-- Branch for `UnetLoaderGGUF` (lines 424-435): sets the model if unset,
else appends `" + <new>"` when the new name is not already contained. -/
def stepGGUF (ct inputs : JValue) (p : Parsed) : Except Unit Parsed :=
  if isStrB ct "UnetLoaderGGUF" && truthyB (getProp inputs "unet_name") then
    if !truthyB p.model then .ok { p with model := getProp inputs "unet_name" }
    else
      match jsIncludes p.model (getProp inputs "unet_name") with
      | .error e => .error e
      | .ok b =>
        if b then .ok p
        else .ok { p with model := vStr (jsDisplay p.model ++ " + " ++ jsDisplay (getProp inputs "unet_name")) }
  else .ok p

/-- Branch for `CheckpointLoaderSimple` (lines 438-442). -/
def stepCheckpoint (ct inputs : JValue) (p : Parsed) : Parsed :=
  if isStrB ct "CheckpointLoaderSimple" && truthyB (getProp inputs "ckpt_name") then
    if !truthyB p.model then { p with model := getProp inputs "ckpt_name" } else p
  else p

/-- Branch for `WanVideoLoraSelect` / `WanVideoLoraSelectMulti`
(lines 446-453): pushes a lora unless the name is the sentinel "none";
strength falls back `strength || strength_0 || 1.0`. -/
def stepWanLora (ct inputs : JValue) (p : Parsed) : Parsed :=
  if (isStrB ct "WanVideoLoraSelect" || isStrB ct "WanVideoLoraSelectMulti") && truthyB (getProp inputs "lora") then
    if !isStrB (getProp inputs "lora") "none" then
      { p with loras := p.loras ++
          [⟨getProp inputs "lora", jsOr (getProp inputs "strength") (jsOr (getProp inputs "strength_0") (vNum 1))⟩] }
    else p
  else p

/-- Branch for `LoraLoader` / `LoraLoaderModelOnly` (lines 456-461);
strength falls back `strength_model || strength_clip || 1.0`. -/
def stepLoraLoader (ct inputs : JValue) (p : Parsed) : Parsed :=
  if (isStrB ct "LoraLoader" || isStrB ct "LoraLoaderModelOnly") && truthyB (getProp inputs "lora_name") then
    { p with loras := p.loras ++
        [⟨getProp inputs "lora_name", jsOr (getProp inputs "strength_model") (jsOr (getProp inputs "strength_clip") (vNum 1))⟩] }
  else p

/-- Records collected from the array field of a `Lora Loader (LoraManager)`
node: one entry per element whose active flag is not strictly false and
whose name is truthy (lines 467-476). -/
def loraManagerEntries : List JValue → List LoraEntry
  | [] => []
  | l :: ls =>
    (if !isFalseB (getProp l "active") && truthyB (getProp l "name") then
      [(⟨getProp l "name", jsOr (getProp l "strength") (vNum 1)⟩ : LoraEntry)]
    else []) ++ loraManagerEntries ls

/-- Branch for `Lora Loader (LoraManager)` (lines 464-477). -/
def stepLoraManager (ct inputs : JValue) (p : Parsed) : Parsed :=
  if isStrB ct "Lora Loader (LoraManager)" && truthyB (getProp inputs "loras") then
    match getProp inputs "loras" with
    | vArr ls => { p with loras := p.loras ++ loraManagerEntries ls }
    | _ => p
  else p

/-- Branch for `WanVideoSampler` (lines 480-485): sets steps, cfg, seed and
scheduler independently; the sampler member is never assigned. -/
def stepSampler (ct inputs : JValue) (p : Parsed) : Parsed :=
  if isStrB ct "WanVideoSampler" then
    let p1 := if truthyB (getProp inputs "steps") then { p with steps := getProp inputs "steps" } else p
    let p2 := if truthyB (getProp inputs "cfg") then { p1 with cfg := getProp inputs "cfg" } else p1
    let p3 := if !isUndefB (getProp inputs "seed") then { p2 with seed := getProp inputs "seed" } else p2
    if truthyB (getProp inputs "scheduler") then { p3 with scheduler := getProp inputs "scheduler" } else p3
  else p

/-- Branch for `WanVideoVAELoader` (lines 488-490). -/
def stepVAE (ct inputs : JValue) (p : Parsed) : Parsed :=
  if isStrB ct "WanVideoVAELoader" && truthyB (getProp inputs "model_name") then
    { p with vaeModel := getProp inputs "model_name" }
  else p

/-- Branch for `CLIPLoader` (lines 493-495). -/
def stepCLIPLoader (ct inputs : JValue) (p : Parsed) : Parsed :=
  if isStrB ct "CLIPLoader" && truthyB (getProp inputs "clip_name") then
    { p with clipModel := getProp inputs "clip_name" }
  else p

/-- Branch for `VHS_VideoCombine` (lines 498-500). -/
def stepVHS (ct inputs : JValue) (p : Parsed) : Parsed :=
  if isStrB ct "VHS_VideoCombine" then
    if truthyB (getProp inputs "frame_rate") then { p with frameRate := getProp inputs "frame_rate" } else p
  else p

/-- Branch for `WanVideoEmptyEmbeds` (lines 503-508): frame count, and the
resolution template string when both width and height are truthy. -/
def stepEmptyEmbeds (ct inputs : JValue) (p : Parsed) : Parsed :=
  if isStrB ct "WanVideoEmptyEmbeds" then
    let p1 := if truthyB (getProp inputs "num_frames") then { p with numFrames := getProp inputs "num_frames" } else p
    if truthyB (getProp inputs "width") && truthyB (getProp inputs "height") then
      { p1 with resolution := vStr (jsDisplay (getProp inputs "width") ++ "x" ++ jsDisplay (getProp inputs "height")) }
    else p1
  else p

/-- Branch for the aspect-ratio calculator node (lines 511-513). -/
def stepAspect (ct inputs : JValue) (p : Parsed) : Parsed :=
  if isStrB ct "Width and height from aspect ratio 🦴" then
    { p with aspectRatio := getProp inputs "aspect_ratio" }
  else p

/-- The branches following the two throwing model-loader branches, in
source order (checkpoint loader through aspect ratio); none can throw. -/
def pureSteps (ct inputs : JValue) (p : Parsed) : Parsed :=
  stepAspect ct inputs (stepEmptyEmbeds ct inputs (stepVHS ct inputs (stepCLIPLoader ct inputs
    (stepVAE ct inputs (stepSampler ct inputs (stepLoraManager ct inputs (stepLoraLoader ct inputs
      (stepWanLora ct inputs (stepCheckpoint ct inputs p)))))))))

/-- All per-kind branches of the node callback, in source order; the two
model-loader branches may throw (propagating out of the iteration). -/
def parseNode (ct inputs : JValue) (p : Parsed) : Except Unit Parsed :=
  Except.bind (stepModelLoader ct inputs (stepWildcard ct inputs (stepCLIPText ct inputs p)))
    (fun p1 => Except.map (pureSteps ct inputs) (stepGGUF ct inputs p1))

/-- One iteration of the node callback: skips nodes that are falsy or have
a falsy inputs member (line 395). -/
def parseStep (p : Parsed) (node : JValue) : Except Unit Parsed :=
  if truthyB node && truthyB (getProp node "inputs") then
    parseNode (getProp node "class_type") (getProp node "inputs") p
  else .ok p

/-- Sequential `forEach` over the node values with exception propagation. -/
def runNodes (p : Parsed) : List JValue → Except Unit Parsed
  | [] => .ok p
  | n :: rest =>
    match parseStep p n with
    | .error e => .error e
    | .ok p2 => runNodes p2 rest

/-- `Object.values`: field values of an object in declaration order, the
elements of an array, nothing otherwise. -/
def objValues : JValue → List JValue
  | vObj kvs => kvs.map Prod.snd
  | vArr xs => xs
  | _ => []

/-- `parseComfyUIWorkflow` (lines 371-517): returns the all-null record for
a falsy or non-object argument, else folds the node callback over the
values in declared order. -/
def parseComfyUIWorkflow (workflowData : JValue) : Except Unit Parsed :=
  if !truthyB workflowData || typeofStr workflowData != "object" then .ok {}
  else runNodes {} (objValues workflowData)

/-- Whether an Except produced a value. -/
def isOkE : Except Unit Parsed → Bool
  | .ok _ => true
  | .error _ => false

/-- The node-level guard of the callback (line 395). -/
def nodeActive (n : JValue) : Bool :=
  truthyB n && truthyB (getProp n "inputs")

/-- Whether a node can reach one of the three model-writing branches. -/
def isModelNode (n : JValue) : Bool :=
  nodeActive n &&
    ((isStrB (getProp n "class_type") "WanVideoModelLoader" && truthyB (getProp (getProp n "inputs") "model")) ||
     (isStrB (getProp n "class_type") "UnetLoaderGGUF" && truthyB (getProp (getProp n "inputs") "unet_name")) ||
     (isStrB (getProp n "class_type") "CheckpointLoaderSimple" && truthyB (getProp (getProp n "inputs") "ckpt_name")))

/-- The unet name of a node that reaches the `UnetLoaderGGUF` branch. -/
def ggufName (n : JValue) : Option JValue :=
  if nodeActive n && isStrB (getProp n "class_type") "UnetLoaderGGUF" && truthyB (getProp (getProp n "inputs") "unet_name") then
    some (getProp (getProp n "inputs") "unet_name")
  else none

/-- The populated text of a node that reaches the wildcard branch. -/
def wildcardText (n : JValue) : Option JValue :=
  if nodeActive n && isStrB (getProp n "class_type") "ImpactWildcardProcessor" && truthyB (getProp (getProp n "inputs") "populated_text") then
    some (getProp (getProp n "inputs") "populated_text")
  else none

/-- The populated text of the last wildcard node of a node list. -/
def lastWildcardText : List JValue → Option JValue
  | [] => none
  | n :: rest =>
    match lastWildcardText rest with
    | some v => some v
    | none => wildcardText n

/-- ASCII lower-casing, matching the case folding the i-flag performs on
the ASCII regex patterns of the source. -/
def charLower (c : Char) : Char :=
  if 'A' ≤ c && c ≤ 'Z' then Char.ofNat (c.toNat + 32) else c

/-- Case-insensitive literal match of `needle` at the head of `hay`. -/
def ciStarts : List Char → List Char → Bool
  | [], _ => true
  | _ :: _, [] => false
  | n :: ns, h :: hs => (charLower n == charLower h) && ciStarts ns hs

/-- JS regex whitespace class and the whitespace removed by trim (the
common ASCII cases plus no-break space, line separators and BOM; the
remaining exotic Unicode spaces never occur in the analysed texts). -/
def isJsSpace (c : Char) : Bool :=
  c == ' ' || c == '\t' || c == '\n' || c == '\r' || c == '\x0b' || c == '\x0c' ||
  c == '\u00A0' || c == '\u2028' || c == '\u2029' || c == '\uFEFF'

/-- JS line terminators, which the dot of a regex never matches. -/
def isLineTerm (c : Char) : Bool :=
  c == '\n' || c == '\r' || c == '\u2028' || c == '\u2029'

/-- The ordinal safety ratings. -/
inductive Rating where
  | SAFE : Rating
  | PG13 : Rating
  | R : Rating
  | XXX : Rating
deriving DecidableEq

/-- `ratingLevels` (classifier line 212). -/
def ratingLevel : Rating → Nat
  | .SAFE => 0
  | .PG13 => 1
  | .R => 2
  | .XXX => 3

/-- The uppercased token of each rating. -/
def ratingStr : Rating → String
  | .SAFE => "SAFE"
  | .PG13 => "PG-13"
  | .R => "R"
  | .XXX => "XXX"

/-- The rating alternation `(SAFE|PG-13|R|XXX)` tried at one position, in
the order of the pattern. -/
def tokenRating (l : List Char) : Option Rating :=
  if ciStarts "safe".toList l then some .SAFE
  else if ciStarts "pg-13".toList l then some .PG13
  else if ciStarts "r".toList l then some .R
  else if ciStarts "xxx".toList l then some .XXX
  else none

/-- First match of the pattern `RATING:\s*(SAFE|PG-13|R|XXX)` with the
i flag: scan for the literal, skip the whitespace run greedily (no token
starts with whitespace, so lesser skips cannot succeed), try the
alternation, and resume the scan one position later on failure. -/
def findRating : List Char → Option Rating
  | [] => none
  | l@(_ :: rest) =>
    if ciStarts "rating:".toList l then
      match tokenRating ((l.drop 7).dropWhile isJsSpace) with
      | some r => some r
      | none => findRating rest
    else findRating rest

/-- Backtracking of `\s*(.+)` after a matched `REASON:` literal: `k` steps
of whitespace are consumed greedily, a line terminator or the end of input
forces a shorter run, and the capture is the maximal run of
non-terminators. Returns none when every run length fails. -/
def reasonSplit : Nat → List Char → Option (List Char)
  | k, l =>
    match l.drop k with
    | c :: _ =>
      if !isLineTerm c then some ((l.drop k).takeWhile (fun d => !isLineTerm d))
      else match k with
        | 0 => none
        | k' + 1 => reasonSplit k' l
    | [] =>
      match k with
      | 0 => none
      | k' + 1 => reasonSplit k' l

/-- First match of `REASON:\s*(.+)` with the i flag, returning the capture
from the original text. -/
def findReason : List Char → Option (List Char)
  | [] => none
  | l@(_ :: rest) =>
    if ciStarts "reason:".toList l then
      match reasonSplit (((l.drop 7).takeWhile isJsSpace).length) (l.drop 7) with
      | some cap => some cap
      | none => findReason rest
    else findReason rest

/-- `String.prototype.trim`. -/
def trimChars (l : List Char) : List Char :=
  ((l.dropWhile isJsSpace).reverse.dropWhile isJsSpace).reverse

/-- The reason the loop associates with a frame whose parsed rating is
`fr` (classifier lines 225, 230): the trimmed REASON capture when
non-empty, else the template `Content classified as <rating>`. -/
def frameReasonString (result : String) (fr : Rating) : String :=
  let frameReason := String.mk (trimChars ((findReason result.toList).getD []))
  if frameReason != "" then frameReason else "Content classified as " ++ ratingStr fr

/-- Rating parsing of one frame response (classifier lines 220-231):
parse the rating and reason lines; when the parsed rating strictly exceeds
the running maximum, replace the maximum and its reason (`frameReason` is
computed before the comparison in the source but is read only inside the
update, so hoisting it into `frameReasonString` preserves semantics). -/
def updateRating (result : String) (maxR : Rating) (reason : String) : Rating × String :=
  match findRating result.toList with
  | none => (maxR, reason)
  | some fr =>
    if ratingLevel fr > ratingLevel maxR then (fr, frameReasonString result fr)
    else (maxR, reason)

/-- The rating component of one aggregation step, skipping falsy frame
results exactly as the loop does. -/
def stepRating (r : Rating) (f : Option String) : Rating :=
  match f with
  | none => r
  | some s =>
    if s != "" then
      match findRating s.toList with
      | none => r
      | some fr => if ratingLevel fr > ratingLevel r then fr else r
    else r

/-- The reason recorded for the first truthy frame whose parsed rating
equals `m`: when `m` is the final running maximum, that frame performs
the last strict increase of the maximum, so its reason is the one the
run returns. -/
def firstMaxReason : List (Option String) → Rating → Option String
  | [], _ => none
  | f :: rest, m =>
    match f with
    | some s =>
      if s != "" then
        match findRating s.toList with
        | some fr => if fr = m then some (frameReasonString s fr) else firstMaxReason rest m
        | none => firstMaxReason rest m
      else firstMaxReason rest m
    | none => firstMaxReason rest m

/-- Occurrence of `b` after a gap: `b` matches here, or the current char is
part of the gap (which, without the dotAll behaviour, must not be a line
terminator) and `b` occurs later. -/
def findAfterGap (dotAll : Bool) (b : List Char) : List Char → Bool
  | [] => b.isEmpty
  | l@(c :: rest) => ciStarts b l || ((dotAll || !isLineTerm c) && findAfterGap dotAll b rest)

/-- Existence of a match of the pattern `a<gap>b` anywhere in the text,
where the gap is `.*?` (no line terminators) or `[\s\S]*?` (dotAll). -/
def occPair (dotAll : Bool) (a b : List Char) : List Char → Bool
  | [] => false
  | l@(_ :: rest) => (ciStarts a l && findAfterGap dotAll b (l.drop a.length)) || occPair dotAll a b rest

/-- The per-keyword test `(kw).*?(alt1|..)|(alt1|..).*?(kw)` with the
i flag: some alternative occurs after the keyword, or before it. -/
def regexPairTest (dotAll : Bool) (kw : String) (alts : List String) (text : String) : Bool :=
  alts.any (fun sw => occPair dotAll kw.toList sw.toList text.toList) ||
  alts.any (fun sw => occPair dotAll sw.toList kw.toList text.toList)

/-- The restricted-subject keywords of the classifier (line 236). -/
def illegalKeywordsVA : List String :=
  ["child", "minor", "underage", "kid", "young child", "prepubescent"]

/-- The explicit-sexual alternation of the classifier regex (line 239). -/
def sexualAlternativesVA : List String :=
  ["nude", "naked", "sexual", "explicit"]

/-- The inline illegal-content predicate evaluated during classification
(classifier lines 236-241); its regex uses `.*?`, whose dot does not match
line terminators. -/
def hasIllegalContent (result : String) : Bool :=
  illegalKeywordsVA.any (fun kw => regexPairTest false kw sexualAlternativesVA result)

/-- The restricted-subject keywords of the fixed metadata-extractor
predicate (part_000 line 770). -/
def illegalKeywordsME : List String :=
  ["child", "minor", "childhood", "children", "underage", "kid", "young child", "prepubescent"]

/-- The explicit-sexual alternation of the fixed predicate (line 778). -/
def sexualAlternativesME : List String :=
  ["nude", "vagina", "penis", "naked", "sex", "sexual", "explicit"]

/-- `checkForIllegalContent` (part_000 lines 773-781), the FIXED regex
using `[\s\S]*?` to match across newlines. -/
def checkForIllegalContent (text : String) : Bool :=
  if text == "" then false
  else illegalKeywordsME.any (fun kw => regexPairTest true kw sexualAlternativesME text)

/-- The verdict record returned by `classifyContent`. -/
structure Verdict where
  rating : String
  reason : String
  isLegal : Bool
deriving DecidableEq

/-- Outcome of one classification run, together with how many frame
results the loop consumed and whether `cleanupFrames` was invoked for the
extracted frames before returning. -/
structure ClassifyResult where
  verdict : Verdict
  framesInspected : Nat
  framesCleaned : Bool
deriving DecidableEq

/-- The configuration and environment flags read by `classifyContent`. -/
structure ModerationConfig where
  enableModeration : Bool
  ollamaAvailable : Bool

/-- The per-frame loop of `classifyContent` (lines 215-252) over the
sequence of frame analysis results (null results modelled as none): for a
truthy result parse the rating, then test the inline illegal-content
predicate and return the hard rejection immediately, cleaning up the
frames; after the loop the frames are cleaned up and the running maximum
is returned (lines 254-261). -/
def classifyFrames : List (Option String) → Rating → String → Nat → ClassifyResult
  | [], maxR, reason, n => ⟨⟨ratingStr maxR, reason, true⟩, n, true⟩
  | f :: rest, maxR, reason, n =>
    match f with
    | some result =>
      if result != "" then
        let mr := updateRating result maxR reason
        if hasIllegalContent result then
          ⟨⟨"REJECTED", "Potentially illegal content detected", false⟩, n + 1, true⟩
        else classifyFrames rest mr.1 mr.2 (n + 1)
      else classifyFrames rest maxR reason (n + 1)
    | none => classifyFrames rest maxR reason (n + 1)

/-- `classifyContent` (lines 170-272): fail-open when moderation is
disabled or the backend is unavailable, fail-safe to SAFE when frame
extraction throws, else run the per-frame loop starting from SAFE and
"Clean content". The function always returns a verdict: it never raises
to the caller. -/
def classifyContent (config : ModerationConfig) (frames : Except Unit (List (Option String))) : ClassifyResult :=
  if !config.enableModeration then
    ⟨⟨"SAFE", "Content moderation disabled", true⟩, 0, false⟩
  else if !config.ollamaAvailable then
    ⟨⟨"SAFE", "Ollama not available - defaulting to safe", true⟩, 0, false⟩
  else
    match frames with
    | .error _ => ⟨⟨"SAFE", "Classification error - defaulting to safe", true⟩, 0, false⟩
    | .ok fs => classifyFrames fs .SAFE "Clean content" 0

/-- Whether a frame result is truthy and triggers the inline predicate. -/
def frameTriggers : Option String → Bool
  | some s => s != "" && hasIllegalContent s
  | none => false

/-- Index of the first frame result that triggers the hard rejection. -/
def firstIllegal : List (Option String) → Option Nat
  | [] => none
  | f :: rest =>
    if frameTriggers f then some 0
    else (firstIllegal rest).map (· + 1)

/-- Frame results whose second frame triggers the inline predicate. -/
def c2frames : List (Option String) :=
  [some "RATING: SAFE\nREASON: ok", some "A child appears naked here", some "RATING: XXX\nREASON: very explicit"]

/-- Frame results with no predicate match (one null result included). -/
def c2cleanFrames : List (Option String) :=
  [some "RATING: PG-13\nREASON: mild themes", none]

/-- The reference-resolution scenario of the spec: a primitive text node
and a text-encoder node whose text field is the reference tuple. -/
def c3Graph : JValue :=
  vObj [("1", vObj [("inputs", vObj [("value", vStr "A cat sits.")]),
                    ("class_type", vStr "PrimitiveStringMultiline")]),
        ("2", vObj [("inputs", vObj [("text", vArr [vStr "1", vNum 0]), ("clip", vArr [vStr "38", vNum 0])]),
                    ("class_type", vStr "CLIPTextEncode")])]

/-- A graph with text encoders before and after one wildcard node. -/
def c4Graph : JValue :=
  vObj [("1", vObj [("inputs", vObj [("text", vStr "a scenic mountain valley")]),
                    ("class_type", vStr "CLIPTextEncode")]),
        ("2", vObj [("inputs", vObj [("populated_text", vStr "wild prompt")]),
                    ("class_type", vStr "ImpactWildcardProcessor")]),
        ("3", vObj [("inputs", vObj [("text", vStr "another long description")]),
                    ("class_type", vStr "CLIPTextEncode")])]

/-- Frame results carrying the ratings SAFE, R, PG-13 in that order. -/
def c5frames : List (Option String) :=
  [some "RATING: SAFE\nREASON: ok", some "RATING: R\nREASON: violent scene", some "RATING: PG-13\nREASON: mild"]

/-- First quantized-unet loader node. -/
def c7n1 : JValue :=
  vObj [("inputs", vObj [("unet_name", vStr "modelA")]), ("class_type", vStr "UnetLoaderGGUF")]

/-- Second quantized-unet loader node. -/
def c7n2 : JValue :=
  vObj [("inputs", vObj [("unet_name", vStr "modelB")]), ("class_type", vStr "UnetLoaderGGUF")]

/-- A graph holding exactly the two quantized-unet loader nodes. -/
def c7Graph : JValue :=
  vObj [("1", c7n1), ("2", c7n2)]

/-- Two quantized-unet loaders with distinct names "ab" and "a", the
second a substring of the first. -/
def c7cGraph : JValue :=
  vObj [("1", vObj [("inputs", vObj [("unet_name", vStr "ab")]), ("class_type", vStr "UnetLoaderGGUF")]),
        ("2", vObj [("inputs", vObj [("unet_name", vStr "a")]), ("class_type", vStr "UnetLoaderGGUF")])]

/-- Inputs of a text encoder whose text holds the CJK negative marker. -/
def c8inputs : JValue :=
  vObj [("text", vStr "低质量, blurry, bad hands")]

/-- A graph with one text encoder whose text holds only the marker
"worst quality". -/
def c8cGraph : JValue :=
  vObj [("1", vObj [("inputs", vObj [("text", vStr "worst quality, blurry")]),
                    ("class_type", vStr "CLIPTextEncode")])]

/-- A graph whose first text encoder sets the prompt and whose second
text encoder holds the CJK negative marker. -/
def c8cGraph2 : JValue :=
  vObj [("1", vObj [("inputs", vObj [("text", vStr "a clean scenic photo text")]),
                    ("class_type", vStr "CLIPTextEncode")]),
        ("2", vObj [("inputs", vObj [("text", vStr "低质量, blurry")]),
                    ("class_type", vStr "CLIPTextEncode")])]

/-- A graph holding a sampler node with all four sampler settings. -/
def c9Graph : JValue :=
  vObj [("3", vObj [("inputs", vObj [("steps", vNum 20), ("cfg", vNum 7), ("seed", vNum 42), ("scheduler", vStr "unipc")]),
                    ("class_type", vStr "WanVideoSampler")])]

/-- Inputs of a LoRA-selector node with an explicit zero strength. -/
def c10wanInputs : JValue :=
  vObj [("lora", vStr "styleLora.safetensors"), ("strength", vNum 0)]

/-- Inputs of a standard lora-loader node with both strengths zero. -/
def c10stdInputs : JValue :=
  vObj [("lora_name", vStr "detailLora.safetensors"), ("strength_model", vNum 0), ("strength_clip", vNum 0)]

theorem classifyFrames_cleaned : ∀ (l : List (Option String)) (r : Rating) (re : String) (n : Nat),
    (classifyFrames l r re n).framesCleaned = true := by
  intro l
  induction l with
  | nil => intro r re n; rfl
  | cons f rest ih =>
    intro r re n
    cases f with
    | none => exact ih r re (n + 1)
    | some s =>
      simp only [classifyFrames]
      split
      · split
        · rfl
        · exact ih _ _ (n + 1)
      · exact ih r re (n + 1)

theorem classifyFrames_reject : ∀ (l : List (Option String)) (r : Rating) (re : String) (n k : Nat),
    firstIllegal l = some k →
    classifyFrames l r re n = ⟨⟨"REJECTED", "Potentially illegal content detected", false⟩, n + k + 1, true⟩ := by
  intro l
  induction l with
  | nil => intro r re n k h; simp [firstIllegal] at h
  | cons f rest ih =>
    intro r re n k h
    simp only [firstIllegal] at h
    by_cases hf : frameTriggers f = true
    · rw [if_pos hf] at h
      injection h with h0
      subst h0
      cases f with
      | none => simp [frameTriggers] at hf
      | some s =>
        simp only [frameTriggers, Bool.and_eq_true] at hf
        simp [classifyFrames, hf.1, hf.2]
    · rw [if_neg hf] at h
      rcases Option.map_eq_some'.mp h with ⟨k2, hk2, hkeq⟩
      subst hkeq
      cases f with
      | none =>
        have := ih r re (n + 1) k2 hk2
        simp only [classifyFrames, this]
        congr 1
        omega
      | some s =>
        by_cases hs : (s != "") = true
        · have hill : hasIllegalContent s = false := by
            simp only [frameTriggers, Bool.and_eq_true] at hf
            rcases Bool.eq_false_or_eq_true (hasIllegalContent s) with h1 | h1
            · exact absurd ⟨hs, h1⟩ hf
            · exact h1
          simp only [classifyFrames, hs, if_true, hill, if_false, Bool.false_eq_true]
          have := ih (updateRating s r re).1 (updateRating s r re).2 (n + 1) k2 hk2
          rw [this]
          congr 1
          omega
        · simp only [classifyFrames, hs, Bool.false_eq_true, if_false]
          have := ih r re (n + 1) k2 hk2
          rw [this]
          congr 1
          omega

theorem classifyFrames_legal : ∀ (l : List (Option String)) (r : Rating) (re : String) (n : Nat),
    firstIllegal l = none → (classifyFrames l r re n).verdict.isLegal = true := by
  intro l
  induction l with
  | nil => intro r re n _; rfl
  | cons f rest ih =>
    intro r re n h
    simp only [firstIllegal] at h
    by_cases hf : frameTriggers f = true
    · rw [if_pos hf] at h; exact absurd h (by simp)
    · rw [if_neg hf] at h
      have hrest : firstIllegal rest = none := Option.map_eq_none'.mp h
      cases f with
      | none => exact ih r re (n + 1) hrest
      | some s =>
        by_cases hs : (s != "") = true
        · have hill : hasIllegalContent s = false := by
            simp only [frameTriggers, Bool.and_eq_true] at hf
            rcases Bool.eq_false_or_eq_true (hasIllegalContent s) with h1 | h1
            · exact absurd ⟨hs, h1⟩ hf
            · exact h1
          simp only [classifyFrames, hs, if_true, hill, Bool.false_eq_true, if_false]
          exact ih _ _ (n + 1) hrest
        · simp only [classifyFrames, hs, Bool.false_eq_true, if_false]
          exact ih r re (n + 1) hrest

theorem updateRating_fst (s : String) (r : Rating) (re : String) (hs : (s != "") = true) :
    (updateRating s r re).1 = stepRating r (some s) := by
  simp only [updateRating, stepRating, hs, if_true]
  cases h : findRating s.toList with
  | none => rfl
  | some fr =>
    by_cases hgt : ratingLevel fr > ratingLevel r
    · simp [hgt]
    · simp [hgt]

theorem ratingLevel_inj (a b : Rating) (h : ratingLevel a = ratingLevel b) : a = b := by
  cases a <;> cases b <;> first | rfl | (exact absurd h (by simp [ratingLevel]))

theorem updateRating_snd (s : String) (r : Rating) (re : String)
    (h : (updateRating s r re).1 = r) : (updateRating s r re).2 = re := by
  revert h
  simp only [updateRating]
  cases hf : findRating s.toList with
  | none => intro _; rfl
  | some fr =>
    by_cases hgt : ratingLevel fr > ratingLevel r
    · simp only [hgt, if_true]
      intro h
      exact absurd (h ▸ hgt) (lt_irrefl _)
    · simp [hgt]

theorem stepRating_mono (r : Rating) (f : Option String) :
    ratingLevel r ≤ ratingLevel (stepRating r f) := by
  cases f with
  | none => exact le_refl _
  | some s =>
    simp only [stepRating]
    split
    · cases h : findRating s.toList with
      | none => exact le_refl _
      | some fr =>
        by_cases hgt : ratingLevel fr > ratingLevel r
        · simp only [hgt, if_true]; exact le_of_lt hgt
        · simp only [hgt, if_false]; exact le_refl _
    · exact le_refl _

theorem foldl_stepRating_mono (l : List (Option String)) (r : Rating) :
    ratingLevel r ≤ ratingLevel (l.foldl stepRating r) := by
  induction l generalizing r with
  | nil => exact le_refl _
  | cons f rest ih =>
    exact le_trans (stepRating_mono r f) (ih (stepRating r f))

theorem classifyFrames_rating : ∀ (l : List (Option String)) (r : Rating) (re : String) (n : Nat),
    firstIllegal l = none →
    (classifyFrames l r re n).verdict.rating = ratingStr (l.foldl stepRating r) := by
  intro l
  induction l with
  | nil => intro r re n _; rfl
  | cons f rest ih =>
    intro r re n h
    simp only [firstIllegal] at h
    by_cases hf : frameTriggers f = true
    · rw [if_pos hf] at h; exact absurd h (by simp)
    · rw [if_neg hf] at h
      have hrest : firstIllegal rest = none := Option.map_eq_none'.mp h
      cases f with
      | none => exact ih r re (n + 1) hrest
      | some s =>
        by_cases hs : (s != "") = true
        · have hill : hasIllegalContent s = false := by
            simp only [frameTriggers, Bool.and_eq_true] at hf
            rcases Bool.eq_false_or_eq_true (hasIllegalContent s) with h1 | h1
            · exact absurd ⟨hs, h1⟩ hf
            · exact h1
          simp only [classifyFrames, hs, if_true, hill, Bool.false_eq_true, if_false]
          rw [ih _ _ (n + 1) hrest, List.foldl_cons, updateRating_fst s r re hs]
        · have hstep : stepRating r (some s) = r := by
            simp only [stepRating, hs, Bool.false_eq_true, if_false]
          simp only [classifyFrames, hs, Bool.false_eq_true, if_false]
          rw [ih r re (n + 1) hrest, List.foldl_cons, hstep]

theorem classifyFrames_reason : ∀ (l : List (Option String)) (r : Rating) (re : String) (n : Nat),
    firstIllegal l = none → l.foldl stepRating r = r →
    (classifyFrames l r re n).verdict.reason = re := by
  intro l
  induction l with
  | nil => intro r re n _ _; rfl
  | cons f rest ih =>
    intro r re n h hfix
    simp only [firstIllegal] at h
    rw [List.foldl_cons] at hfix
    have hstepfix : stepRating r f = r := by
      apply ratingLevel_inj
      apply le_antisymm
      · calc ratingLevel (stepRating r f)
            ≤ ratingLevel (rest.foldl stepRating (stepRating r f)) := foldl_stepRating_mono rest _
          _ = ratingLevel r := by rw [hfix]
      · exact stepRating_mono r f
    by_cases hf : frameTriggers f = true
    · rw [if_pos hf] at h; exact absurd h (by simp)
    · rw [if_neg hf] at h
      have hrest : firstIllegal rest = none := Option.map_eq_none'.mp h
      have hfix2 : rest.foldl stepRating r = r := by rw [hstepfix] at hfix; exact hfix
      cases f with
      | none => exact ih r re (n + 1) hrest hfix2
      | some s =>
        by_cases hs : (s != "") = true
        · have hill : hasIllegalContent s = false := by
            simp only [frameTriggers, Bool.and_eq_true] at hf
            rcases Bool.eq_false_or_eq_true (hasIllegalContent s) with h1 | h1
            · exact absurd ⟨hs, h1⟩ hf
            · exact h1
          simp only [classifyFrames, hs, if_true, hill, Bool.false_eq_true, if_false]
          have hu1 : (updateRating s r re).1 = r := by rw [updateRating_fst s r re hs, hstepfix]
          rw [updateRating_fst s r re hs, hstepfix, updateRating_snd s r re hu1]
          exact ih r re (n + 1) hrest hfix2
        · simp only [classifyFrames, hs, Bool.false_eq_true, if_false]
          exact ih r re (n + 1) hrest hfix2

theorem level_lt_of_foldl_ne (l : List (Option String)) (r : Rating)
    (h : l.foldl stepRating r ≠ r) :
    ratingLevel r < ratingLevel (l.foldl stepRating r) := by
  rcases lt_or_eq_of_le (foldl_stepRating_mono l r) with hlt | heq
  · exact hlt
  · exact absurd (ratingLevel_inj r (l.foldl stepRating r) heq).symm h

theorem classifyFrames_maxReason : ∀ (l : List (Option String)) (r : Rating) (re : String) (n : Nat),
    firstIllegal l = none → l.foldl stepRating r ≠ r →
    ∃ rr, firstMaxReason l (l.foldl stepRating r) = some rr ∧
      (classifyFrames l r re n).verdict.reason = rr := by
  intro l
  induction l with
  | nil => intro r re n _ hne; exact absurd rfl hne
  | cons f rest ih =>
    intro r re n h hne
    simp only [firstIllegal] at h
    by_cases hf : frameTriggers f = true
    · rw [if_pos hf] at h; exact absurd h (by simp)
    · rw [if_neg hf] at h
      have hrest : firstIllegal rest = none := Option.map_eq_none'.mp h
      rw [List.foldl_cons] at hne ⊢
      cases f with
      | none =>
        have hstep : stepRating r none = r := rfl
        rw [hstep] at hne ⊢
        simp only [classifyFrames, firstMaxReason]
        exact ih r re (n + 1) hrest hne
      | some s =>
        by_cases hs : (s != "") = true
        · have hill : hasIllegalContent s = false := by
            simp only [frameTriggers, Bool.and_eq_true] at hf
            rcases Bool.eq_false_or_eq_true (hasIllegalContent s) with h1 | h1
            · exact absurd ⟨hs, h1⟩ hf
            · exact h1
          simp only [classifyFrames, hs, if_true, hill, Bool.false_eq_true, if_false]
          cases hfind : findRating s.toList with
          | none =>
            have hfind2 : findRating s.data = none := hfind
            have h1 : (updateRating s r re).1 = r := by simp [updateRating, hfind, hfind2]
            have h2 : (updateRating s r re).2 = re := by simp [updateRating, hfind, hfind2]
            have hstep : stepRating r (some s) = r := by simp [stepRating, hs, hfind, hfind2]
            rw [hstep] at hne ⊢
            rw [h1, h2]
            simp only [firstMaxReason, hs, if_true, hfind]
            exact ih r re (n + 1) hrest hne
          | some fr =>
            have hfind2 : findRating s.data = some fr := hfind
            by_cases hgt : ratingLevel fr > ratingLevel r
            · have h1 : (updateRating s r re).1 = fr := by simp [updateRating, hfind, hfind2, hgt]
              have h2 : (updateRating s r re).2 = frameReasonString s fr := by
                simp [updateRating, hfind, hfind2, hgt]
              have hstep : stepRating r (some s) = fr := by simp [stepRating, hs, hfind, hfind2, hgt]
              rw [hstep] at hne ⊢
              rw [h1, h2]
              by_cases hfix : rest.foldl stepRating fr = fr
              · rw [hfix] at hne ⊢
                simp only [firstMaxReason, hs, if_true, hfind, if_pos rfl]
                exact ⟨frameReasonString s fr, rfl,
                  classifyFrames_reason rest fr (frameReasonString s fr) (n + 1) hrest hfix⟩
              · have hfrne : ¬(fr = rest.foldl stepRating fr) := fun he => hfix he.symm
                simp only [firstMaxReason, hs, if_true, hfind, if_neg hfrne]
                exact ih fr (frameReasonString s fr) (n + 1) hrest hfix
            · have h1 : (updateRating s r re).1 = r := by simp [updateRating, hfind, hfind2, hgt]
              have h2 : (updateRating s r re).2 = re := by simp [updateRating, hfind, hfind2, hgt]
              have hstep : stepRating r (some s) = r := by simp [stepRating, hs, hfind, hfind2, hgt]
              rw [hstep] at hne ⊢
              rw [h1, h2]
              have hlt := level_lt_of_foldl_ne rest r hne
              have hfrne : ¬(fr = rest.foldl stepRating r) := by
                intro he
                rw [he] at hgt
                exact hgt hlt
              simp only [firstMaxReason, hs, if_true, hfind, if_neg hfrne]
              exact ih r re (n + 1) hrest hne
        · have hstep : stepRating r (some s) = r := by simp [stepRating, hs]
          rw [hstep] at hne ⊢
          simp only [classifyFrames, hs, Bool.false_eq_true, if_false, firstMaxReason]
          exact ih r re (n + 1) hrest hne

/-- Claim C1. The spec demands a cross-line co-occurrence test. The inline
predicate evaluated during classification (`hasIllegalContent`,
videoAnalysis.js lines 236-241) is true on the same-line text and on the
order-swapped text, false on texts with only one keyword class — but false
on the text with the keywords split across a line break, because its regex
gap is `.*?` and the dot does not match line terminators. The fixed
predicate `checkForIllegalContent` shipped in the metadata extractor
(part_000 lines 770-781, with its own passing self-test) is true there, so
the code used during classification contradicts both the spec and the
fixed function of the same repository. -/
theorem c1_illegal_predicate_newline_bug :
    hasIllegalContent "There is a child and they are naked" = true
    ∧ hasIllegalContent "There is a child\nand they are naked" = false
    ∧ checkForIllegalContent "There is a child\nand they are naked" = true
    ∧ checkForIllegalContent "There is a child and they are naked" = true
    ∧ hasIllegalContent "naked person with a child" = true
    ∧ hasIllegalContent "There is a child" = false
    ∧ hasIllegalContent "They are naked" = false := by
  exact ⟨by decide, by decide, by decide, by decide, by decide, by decide, by decide⟩

/-- Claim C2: with moderation enabled and the backend available, if some
frame result triggers the inline illegal-content predicate then
classification returns exactly the hard-rejection verdict, the loop
consumes exactly the frames up to and including the triggering one, and
the frames are cleaned up; on the no-rejection path the frames are cleaned
up as well and the verdict is legal. -/
theorem c2_reject_short_circuit (config : ModerationConfig) (frames : List (Option String)) (k : Nat)
    (hm : config.enableModeration = true) (ho : config.ollamaAvailable = true) :
    (firstIllegal frames = some k →
      classifyContent config (.ok frames) =
        ⟨⟨"REJECTED", "Potentially illegal content detected", false⟩, k + 1, true⟩)
    ∧ (firstIllegal frames = none →
      (classifyContent config (.ok frames)).framesCleaned = true ∧
      (classifyContent config (.ok frames)).verdict.isLegal = true) := by
  have hcc : classifyContent config (.ok frames) = classifyFrames frames .SAFE "Clean content" 0 := by
    simp [classifyContent, hm, ho]
  constructor
  · intro h
    rw [hcc, classifyFrames_reject frames .SAFE "Clean content" 0 k h]
    simp
  · intro h
    rw [hcc]
    exact ⟨classifyFrames_cleaned frames .SAFE "Clean content" 0,
           classifyFrames_legal frames .SAFE "Clean content" 0 h⟩

/-- Witness for C2 at concrete inputs: the second frame of `c2frames`
triggers the predicate, so exactly two frames are inspected and the run
rejects; the clean run also reports cleaned frames and a legal verdict. -/
theorem c2_reject_short_circuit_witness :
    (classifyContent ⟨true, true⟩ (.ok c2frames) =
      ⟨⟨"REJECTED", "Potentially illegal content detected", false⟩, 2, true⟩)
    ∧ ((classifyContent ⟨true, true⟩ (.ok c2cleanFrames)).framesCleaned = true ∧
       (classifyContent ⟨true, true⟩ (.ok c2cleanFrames)).verdict.isLegal = true) :=
  ⟨(c2_reject_short_circuit ⟨true, true⟩ c2frames 1 rfl rfl).1 (by decide),
   (c2_reject_short_circuit ⟨true, true⟩ c2cleanFrames 0 rfl rfl).2 (by decide)⟩

/-- Claim C5: on a run with no illegal-content match, the final rating is
the running maximum (a left fold of the per-frame rating step starting at
SAFE) of the parsed per-frame ratings, the running maximum over the
inspected prefixes never decreases, the reason stays "Clean content" when
no frame exceeded SAFE, and otherwise the reason is tied to the maximum:
it is exactly the reason the loop derives (trimmed REASON capture, or the
template) from the first frame whose parsed rating equals the final
maximum — the frame performing the last strict increase of the running
maximum. -/
theorem c5_running_maximum (frames : List (Option String))
    (h : firstIllegal frames = none) :
    (classifyContent ⟨true, true⟩ (.ok frames)).verdict.rating =
      ratingStr (frames.foldl stepRating .SAFE)
    ∧ (∀ i : Nat, ratingLevel ((frames.take i).foldl stepRating .SAFE) ≤
        ratingLevel ((frames.take (i + 1)).foldl stepRating .SAFE))
    ∧ (frames.foldl stepRating .SAFE = .SAFE →
      (classifyContent ⟨true, true⟩ (.ok frames)).verdict.reason = "Clean content")
    ∧ (frames.foldl stepRating .SAFE ≠ .SAFE →
      ∃ rr, firstMaxReason frames (frames.foldl stepRating .SAFE) = some rr ∧
        (classifyContent ⟨true, true⟩ (.ok frames)).verdict.reason = rr) := by
  have hcc : classifyContent ⟨true, true⟩ (.ok frames) = classifyFrames frames .SAFE "Clean content" 0 := by
    simp [classifyContent]
  refine ⟨?_, ?_, ?_, ?_⟩
  · rw [hcc]; exact classifyFrames_rating frames .SAFE "Clean content" 0 h
  · intro i
    rw [List.take_succ, List.foldl_append]
    cases frames[i]? with
    | none => exact le_refl _
    | some f => simpa using stepRating_mono ((frames.take i).foldl stepRating .SAFE) f
  · intro hfold
    rw [hcc]
    exact classifyFrames_reason frames .SAFE "Clean content" 0 h hfold
  · intro hne
    rw [hcc]
    exact classifyFrames_maxReason frames .SAFE "Clean content" 0 h hne

/-- Witness for C5 at the concrete frames carrying SAFE, R, PG-13 in that
order: no illegal match, the theorem applies, the resulting rating is the
running maximum R (not the last value PG-13), and the reason is the one
of the R frame, "violent scene". -/
theorem c5_running_maximum_witness :
    ((classifyContent ⟨true, true⟩ (.ok c5frames)).verdict.rating =
        ratingStr (c5frames.foldl stepRating .SAFE)
      ∧ (∀ i : Nat, ratingLevel ((c5frames.take i).foldl stepRating .SAFE) ≤
          ratingLevel ((c5frames.take (i + 1)).foldl stepRating .SAFE))
      ∧ (c5frames.foldl stepRating .SAFE = .SAFE →
        (classifyContent ⟨true, true⟩ (.ok c5frames)).verdict.reason = "Clean content")
      ∧ (c5frames.foldl stepRating .SAFE ≠ .SAFE →
        ∃ rr, firstMaxReason c5frames (c5frames.foldl stepRating .SAFE) = some rr ∧
          (classifyContent ⟨true, true⟩ (.ok c5frames)).verdict.reason = rr))
    ∧ ratingStr (c5frames.foldl stepRating .SAFE) = "R"
    ∧ (classifyContent ⟨true, true⟩ (.ok c5frames)).verdict.rating = "R"
    ∧ firstMaxReason c5frames (c5frames.foldl stepRating .SAFE) = some "violent scene"
    ∧ (classifyContent ⟨true, true⟩ (.ok c5frames)).verdict.reason = "violent scene" :=
  ⟨c5_running_maximum c5frames (by decide), by decide, by decide, by decide, by decide⟩

/-- Claim C6: when moderation is disabled, or the backend is unavailable,
classification skips all per-frame inspection (no frames consumed) and
returns a SAFE, legal verdict with the explanatory reason; when frame
retrieval throws, classification likewise returns the SAFE, legal verdict
instead of propagating the error — `classifyContent` is a total function
and never raises to the caller. -/
theorem c6_fail_open (config : ModerationConfig) (frames : Except Unit (List (Option String))) :
    (config.enableModeration = false →
      classifyContent config frames = ⟨⟨"SAFE", "Content moderation disabled", true⟩, 0, false⟩)
    ∧ (config.enableModeration = true → config.ollamaAvailable = false →
      classifyContent config frames = ⟨⟨"SAFE", "Ollama not available - defaulting to safe", true⟩, 0, false⟩)
    ∧ (config.enableModeration = true → config.ollamaAvailable = true → frames = .error () →
      classifyContent config frames = ⟨⟨"SAFE", "Classification error - defaulting to safe", true⟩, 0, false⟩) := by
  refine ⟨?_, ?_, ?_⟩
  · intro hm; simp [classifyContent, hm]
  · intro hm ho; simp [classifyContent, hm, ho]
  · intro hm ho he; subst he; simp [classifyContent, hm, ho]

/-- Witness for C6 at concrete configurations and a throwing frame
extraction. -/
theorem c6_fail_open_witness :
    classifyContent ⟨false, true⟩ (.ok []) = ⟨⟨"SAFE", "Content moderation disabled", true⟩, 0, false⟩
    ∧ classifyContent ⟨true, false⟩ (.ok []) = ⟨⟨"SAFE", "Ollama not available - defaulting to safe", true⟩, 0, false⟩
    ∧ classifyContent ⟨true, true⟩ (.error ()) = ⟨⟨"SAFE", "Classification error - defaulting to safe", true⟩, 0, false⟩ :=
  ⟨(c6_fail_open ⟨false, true⟩ (.ok [])).1 rfl,
   (c6_fail_open ⟨true, false⟩ (.ok [])).2.1 rfl rfl,
   (c6_fail_open ⟨true, true⟩ (.error ())).2.2 rfl rfl rfl⟩

theorem stepCLIPText_sampler (ct inputs : JValue) (p : Parsed) :
    (stepCLIPText ct inputs p).sampler = p.sampler := by
  simp only [stepCLIPText]
  repeat' split
  all_goals rfl

theorem stepWildcard_sampler (ct inputs : JValue) (p : Parsed) :
    (stepWildcard ct inputs p).sampler = p.sampler := by
  simp only [stepWildcard]
  repeat' split
  all_goals rfl

theorem stepCheckpoint_sampler (ct inputs : JValue) (p : Parsed) :
    (stepCheckpoint ct inputs p).sampler = p.sampler := by
  simp only [stepCheckpoint]
  repeat' split
  all_goals rfl

theorem stepWanLora_sampler (ct inputs : JValue) (p : Parsed) :
    (stepWanLora ct inputs p).sampler = p.sampler := by
  simp only [stepWanLora]
  repeat' split
  all_goals rfl

theorem stepLoraLoader_sampler (ct inputs : JValue) (p : Parsed) :
    (stepLoraLoader ct inputs p).sampler = p.sampler := by
  simp only [stepLoraLoader]
  repeat' split
  all_goals rfl

theorem stepLoraManager_sampler (ct inputs : JValue) (p : Parsed) :
    (stepLoraManager ct inputs p).sampler = p.sampler := by
  simp only [stepLoraManager]
  repeat' split
  all_goals rfl

theorem stepSampler_sampler (ct inputs : JValue) (p : Parsed) :
    (stepSampler ct inputs p).sampler = p.sampler := by
  simp only [stepSampler]
  repeat' split
  all_goals rfl

theorem stepVAE_sampler (ct inputs : JValue) (p : Parsed) :
    (stepVAE ct inputs p).sampler = p.sampler := by
  simp only [stepVAE]
  repeat' split
  all_goals rfl

theorem stepCLIPLoader_sampler (ct inputs : JValue) (p : Parsed) :
    (stepCLIPLoader ct inputs p).sampler = p.sampler := by
  simp only [stepCLIPLoader]
  repeat' split
  all_goals rfl

theorem stepVHS_sampler (ct inputs : JValue) (p : Parsed) :
    (stepVHS ct inputs p).sampler = p.sampler := by
  simp only [stepVHS]
  repeat' split
  all_goals rfl

theorem stepEmptyEmbeds_sampler (ct inputs : JValue) (p : Parsed) :
    (stepEmptyEmbeds ct inputs p).sampler = p.sampler := by
  simp only [stepEmptyEmbeds]
  repeat' split
  all_goals rfl

theorem stepAspect_sampler (ct inputs : JValue) (p : Parsed) :
    (stepAspect ct inputs p).sampler = p.sampler := by
  simp only [stepAspect]
  repeat' split
  all_goals rfl

theorem stepCheckpoint_prompt (ct inputs : JValue) (p : Parsed) :
    (stepCheckpoint ct inputs p).prompt = p.prompt := by
  simp only [stepCheckpoint]
  repeat' split
  all_goals rfl

theorem stepWanLora_prompt (ct inputs : JValue) (p : Parsed) :
    (stepWanLora ct inputs p).prompt = p.prompt := by
  simp only [stepWanLora]
  repeat' split
  all_goals rfl

theorem stepLoraLoader_prompt (ct inputs : JValue) (p : Parsed) :
    (stepLoraLoader ct inputs p).prompt = p.prompt := by
  simp only [stepLoraLoader]
  repeat' split
  all_goals rfl

theorem stepLoraManager_prompt (ct inputs : JValue) (p : Parsed) :
    (stepLoraManager ct inputs p).prompt = p.prompt := by
  simp only [stepLoraManager]
  repeat' split
  all_goals rfl

theorem stepSampler_prompt (ct inputs : JValue) (p : Parsed) :
    (stepSampler ct inputs p).prompt = p.prompt := by
  simp only [stepSampler]
  repeat' split
  all_goals rfl

theorem stepVAE_prompt (ct inputs : JValue) (p : Parsed) :
    (stepVAE ct inputs p).prompt = p.prompt := by
  simp only [stepVAE]
  repeat' split
  all_goals rfl

theorem stepCLIPLoader_prompt (ct inputs : JValue) (p : Parsed) :
    (stepCLIPLoader ct inputs p).prompt = p.prompt := by
  simp only [stepCLIPLoader]
  repeat' split
  all_goals rfl

theorem stepVHS_prompt (ct inputs : JValue) (p : Parsed) :
    (stepVHS ct inputs p).prompt = p.prompt := by
  simp only [stepVHS]
  repeat' split
  all_goals rfl

theorem stepEmptyEmbeds_prompt (ct inputs : JValue) (p : Parsed) :
    (stepEmptyEmbeds ct inputs p).prompt = p.prompt := by
  simp only [stepEmptyEmbeds]
  repeat' split
  all_goals rfl

theorem stepAspect_prompt (ct inputs : JValue) (p : Parsed) :
    (stepAspect ct inputs p).prompt = p.prompt := by
  simp only [stepAspect]
  repeat' split
  all_goals rfl

theorem stepCLIPText_model (ct inputs : JValue) (p : Parsed) :
    (stepCLIPText ct inputs p).model = p.model := by
  simp only [stepCLIPText]
  repeat' split
  all_goals rfl

theorem stepWildcard_model (ct inputs : JValue) (p : Parsed) :
    (stepWildcard ct inputs p).model = p.model := by
  simp only [stepWildcard]
  repeat' split
  all_goals rfl

theorem stepWanLora_model (ct inputs : JValue) (p : Parsed) :
    (stepWanLora ct inputs p).model = p.model := by
  simp only [stepWanLora]
  repeat' split
  all_goals rfl

theorem stepLoraLoader_model (ct inputs : JValue) (p : Parsed) :
    (stepLoraLoader ct inputs p).model = p.model := by
  simp only [stepLoraLoader]
  repeat' split
  all_goals rfl

theorem stepLoraManager_model (ct inputs : JValue) (p : Parsed) :
    (stepLoraManager ct inputs p).model = p.model := by
  simp only [stepLoraManager]
  repeat' split
  all_goals rfl

theorem stepSampler_model (ct inputs : JValue) (p : Parsed) :
    (stepSampler ct inputs p).model = p.model := by
  simp only [stepSampler]
  repeat' split
  all_goals rfl

theorem stepVAE_model (ct inputs : JValue) (p : Parsed) :
    (stepVAE ct inputs p).model = p.model := by
  simp only [stepVAE]
  repeat' split
  all_goals rfl

theorem stepCLIPLoader_model (ct inputs : JValue) (p : Parsed) :
    (stepCLIPLoader ct inputs p).model = p.model := by
  simp only [stepCLIPLoader]
  repeat' split
  all_goals rfl

theorem stepVHS_model (ct inputs : JValue) (p : Parsed) :
    (stepVHS ct inputs p).model = p.model := by
  simp only [stepVHS]
  repeat' split
  all_goals rfl

theorem stepEmptyEmbeds_model (ct inputs : JValue) (p : Parsed) :
    (stepEmptyEmbeds ct inputs p).model = p.model := by
  simp only [stepEmptyEmbeds]
  repeat' split
  all_goals rfl

theorem stepAspect_model (ct inputs : JValue) (p : Parsed) :
    (stepAspect ct inputs p).model = p.model := by
  simp only [stepAspect]
  repeat' split
  all_goals rfl

theorem stepCLIPText_prompt_keep (ct inputs : JValue) (p : Parsed) (hp : truthyB p.prompt = true) :
    (stepCLIPText ct inputs p).prompt = p.prompt := by
  simp only [stepCLIPText, hp, Bool.not_true, Bool.and_false, Bool.false_eq_true, if_false]

theorem stepWildcard_skip (ct inputs : JValue) (p : Parsed)
    (h : (isStrB ct "ImpactWildcardProcessor" && truthyB (getProp inputs "populated_text")) = false) :
    stepWildcard ct inputs p = p := by
  simp only [stepWildcard, h, Bool.false_eq_true, if_false]

theorem stepWildcard_set (ct inputs : JValue) (p : Parsed)
    (h : (isStrB ct "ImpactWildcardProcessor" && truthyB (getProp inputs "populated_text")) = true) :
    (stepWildcard ct inputs p).prompt = getProp inputs "populated_text" := by
  simp only [stepWildcard, h, if_true]

theorem stepModelLoader_skip (ct inputs : JValue) (p : Parsed)
    (h : (isStrB ct "WanVideoModelLoader" && truthyB (getProp inputs "model")) = false) :
    stepModelLoader ct inputs p = .ok p := by
  simp only [stepModelLoader, h, Bool.false_eq_true, if_false]

theorem stepGGUF_skip (ct inputs : JValue) (p : Parsed)
    (h : (isStrB ct "UnetLoaderGGUF" && truthyB (getProp inputs "unet_name")) = false) :
    stepGGUF ct inputs p = .ok p := by
  simp only [stepGGUF, h, Bool.false_eq_true, if_false]

theorem stepCheckpoint_skip (ct inputs : JValue) (p : Parsed)
    (h : (isStrB ct "CheckpointLoaderSimple" && truthyB (getProp inputs "ckpt_name")) = false) :
    stepCheckpoint ct inputs p = p := by
  simp only [stepCheckpoint, h, Bool.false_eq_true, if_false]

theorem stepGGUF_set (ct inputs : JValue) (p : Parsed)
    (hct : (isStrB ct "UnetLoaderGGUF" && truthyB (getProp inputs "unet_name")) = true)
    (hm : p.model = vNull) :
    stepGGUF ct inputs p = .ok { p with model := getProp inputs "unet_name" } := by
  have hmt : truthyB p.model = false := by rw [hm]; rfl
  simp only [stepGGUF, hct, if_true, hmt, Bool.not_false]

theorem stepGGUF_append (ct inputs : JValue) (p : Parsed) (a b : String)
    (hct : isStrB ct "UnetLoaderGGUF" = true)
    (hname : getProp inputs "unet_name" = vStr b) (hb : (b != "") = true)
    (hm : p.model = vStr a) (ha : (a != "") = true)
    (hsub : strContains a b = false) :
    stepGGUF ct inputs p = .ok { p with model := vStr (a ++ " + " ++ b) } := by
  have hmt : truthyB p.model = true := by rw [hm]; exact ha
  have hnt : truthyB (getProp inputs "unet_name") = true := by rw [hname]; exact hb
  simp only [stepGGUF, hct, hnt, Bool.and_self, if_true, hmt, Bool.not_true, Bool.false_eq_true,
    if_false, hm, hname, jsIncludes, jsDisplay, hsub, truthyB, ha, hb, Bool.true_and]

theorem stepModelLoader_ok_frame (ct inputs : JValue) (p q : Parsed)
    (h : stepModelLoader ct inputs p = .ok q) :
    q.prompt = p.prompt ∧ q.sampler = p.sampler := by
  revert h
  simp only [stepModelLoader]
  repeat' split
  all_goals intro h
  all_goals cases h
  all_goals exact ⟨rfl, rfl⟩

theorem stepGGUF_ok_frame (ct inputs : JValue) (p q : Parsed)
    (h : stepGGUF ct inputs p = .ok q) :
    q.prompt = p.prompt ∧ q.sampler = p.sampler := by
  revert h
  simp only [stepGGUF]
  repeat' split
  all_goals intro h
  all_goals cases h
  all_goals exact ⟨rfl, rfl⟩

theorem exceptP_bind_ok (x : Except Unit Parsed) (f : Parsed → Except Unit Parsed) (b : Parsed)
    (h : Except.bind x f = .ok b) : ∃ a, x = .ok a ∧ f a = .ok b := by
  cases x with
  | error e => exact absurd h (by simp [Except.bind])
  | ok a => exact ⟨a, rfl, by simpa [Except.bind] using h⟩

theorem exceptP_map_ok (f : Parsed → Parsed) (x : Except Unit Parsed) (b : Parsed)
    (h : Except.map f x = .ok b) : ∃ a, x = .ok a ∧ f a = b := by
  cases x with
  | error e => exact absurd h (by simp [Except.map])
  | ok a => exact ⟨a, rfl, by simpa [Except.map] using h⟩

theorem pureSteps_sampler (ct inputs : JValue) (p : Parsed) :
    (pureSteps ct inputs p).sampler = p.sampler := by
  unfold pureSteps
  simp only [stepAspect_sampler, stepEmptyEmbeds_sampler, stepVHS_sampler, stepCLIPLoader_sampler,
    stepVAE_sampler, stepSampler_sampler, stepLoraManager_sampler, stepLoraLoader_sampler,
    stepWanLora_sampler, stepCheckpoint_sampler]

theorem parseNode_ok_sampler (ct inputs : JValue) (p q : Parsed)
    (h : parseNode ct inputs p = .ok q) : q.sampler = p.sampler := by
  unfold parseNode at h
  obtain ⟨p1, hml, h2⟩ := exceptP_bind_ok _ _ _ h
  obtain ⟨p2, hgg, h3⟩ := exceptP_map_ok _ _ _ h2
  rw [← h3, pureSteps_sampler, (stepGGUF_ok_frame ct inputs p1 p2 hgg).2,
    (stepModelLoader_ok_frame ct inputs (stepWildcard ct inputs (stepCLIPText ct inputs p)) p1 hml).2,
    stepWildcard_sampler, stepCLIPText_sampler]

theorem parseStep_ok_sampler (p : Parsed) (n : JValue) (q : Parsed)
    (h : parseStep p n = .ok q) : q.sampler = p.sampler := by
  unfold parseStep at h
  split at h
  · exact parseNode_ok_sampler _ _ p q h
  · cases h; rfl

theorem runNodes_sampler : ∀ (l : List JValue) (p q : Parsed),
    runNodes p l = .ok q → q.sampler = p.sampler := by
  intro l
  induction l with
  | nil => intro p q h; cases h; rfl
  | cons n rest ih =>
    intro p q h
    unfold runNodes at h
    revert h
    cases hs : parseStep p n with
    | error e => intro h; cases h
    | ok p2 =>
      intro h
      rw [ih p2 q h, parseStep_ok_sampler p n p2 hs]

/-- Claim C9: whenever extraction produces a record, its sampler member is
null — it is initialised to null and no dispatch branch (the sampler-node
branch sets only steps, cfg, seed and scheduler) ever assigns it. -/
theorem c9_sampler_always_null (wd : JValue)
    (h : isOkE (parseComfyUIWorkflow wd) = true) :
    (parseComfyUIWorkflow wd).map Parsed.sampler = .ok vNull := by
  unfold parseComfyUIWorkflow at h ⊢
  by_cases hg : (!truthyB wd || typeofStr wd != "object") = true
  · rw [if_pos hg]; rfl
  · rw [if_neg hg] at h ⊢
    revert h
    cases hr : runNodes {} (objValues wd) with
    | error e => intro h; cases h
    | ok q =>
      intro _
      simp only [Except.map]
      rw [runNodes_sampler (objValues wd) {} q hr]

/-- Witness for C9 at a graph holding a sampler node with all four sampler
settings populated. -/
theorem c9_sampler_always_null_witness :
    (parseComfyUIWorkflow c9Graph).map Parsed.sampler = .ok vNull :=
  c9_sampler_always_null c9Graph rfl

theorem pureSteps_prompt (ct inputs : JValue) (p : Parsed) :
    (pureSteps ct inputs p).prompt = p.prompt := by
  unfold pureSteps
  simp only [stepAspect_prompt, stepEmptyEmbeds_prompt, stepVHS_prompt, stepCLIPLoader_prompt,
    stepVAE_prompt, stepSampler_prompt, stepLoraManager_prompt, stepLoraLoader_prompt,
    stepWanLora_prompt, stepCheckpoint_prompt]

theorem pureSteps_model (ct inputs : JValue) (p : Parsed)
    (hck : (isStrB ct "CheckpointLoaderSimple" && truthyB (getProp inputs "ckpt_name")) = false) :
    (pureSteps ct inputs p).model = p.model := by
  unfold pureSteps
  simp only [stepAspect_model, stepEmptyEmbeds_model, stepVHS_model, stepCLIPLoader_model,
    stepVAE_model, stepSampler_model, stepLoraManager_model, stepLoraLoader_model,
    stepWanLora_model, stepCheckpoint_skip ct inputs p hck]

theorem parseNode_ok_prompt_keep (ct inputs : JValue) (p q : Parsed)
    (hwc : (isStrB ct "ImpactWildcardProcessor" && truthyB (getProp inputs "populated_text")) = false)
    (hp : truthyB p.prompt = true)
    (h : parseNode ct inputs p = .ok q) : q.prompt = p.prompt := by
  unfold parseNode at h
  obtain ⟨p1, hml, h2⟩ := exceptP_bind_ok _ _ _ h
  obtain ⟨p2, hgg, h3⟩ := exceptP_map_ok _ _ _ h2
  have e0 : (stepWildcard ct inputs (stepCLIPText ct inputs p)).prompt = p.prompt := by
    rw [stepWildcard_skip ct inputs _ hwc, stepCLIPText_prompt_keep ct inputs p hp]
  rw [← h3, pureSteps_prompt, (stepGGUF_ok_frame _ _ _ _ hgg).1,
    (stepModelLoader_ok_frame _ _ _ _ hml).1, e0]

theorem parseNode_ok_wildcard (ct inputs : JValue) (p q : Parsed)
    (hwc : (isStrB ct "ImpactWildcardProcessor" && truthyB (getProp inputs "populated_text")) = true)
    (h : parseNode ct inputs p = .ok q) : q.prompt = getProp inputs "populated_text" := by
  unfold parseNode at h
  obtain ⟨p1, hml, h2⟩ := exceptP_bind_ok _ _ _ h
  obtain ⟨p2, hgg, h3⟩ := exceptP_map_ok _ _ _ h2
  rw [← h3, pureSteps_prompt, (stepGGUF_ok_frame _ _ _ _ hgg).1,
    (stepModelLoader_ok_frame _ _ _ _ hml).1, stepWildcard_set ct inputs _ hwc]

theorem bool_and_true {a b : Bool} (h : (a && b) = true) : a = true ∧ b = true := by
  simp only [Bool.and_eq_true] at h
  exact h

theorem wildcardText_none_elim (n : JValue) (h : wildcardText n = none) (ha : nodeActive n = true) :
    (isStrB (getProp n "class_type") "ImpactWildcardProcessor" &&
      truthyB (getProp (getProp n "inputs") "populated_text")) = false := by
  rcases Bool.eq_false_or_eq_true (isStrB (getProp n "class_type") "ImpactWildcardProcessor" &&
      truthyB (getProp (getProp n "inputs") "populated_text")) with hb | hb
  · exfalso
    rcases bool_and_true hb with ⟨hb1, hb2⟩
    unfold wildcardText at h
    rw [ha, hb1, hb2] at h
    simp at h
  · exact hb

theorem wildcardText_some_elim (n : JValue) (v : JValue) (h : wildcardText n = some v) :
    nodeActive n = true ∧
    (isStrB (getProp n "class_type") "ImpactWildcardProcessor" &&
      truthyB (getProp (getProp n "inputs") "populated_text")) = true ∧
    v = getProp (getProp n "inputs") "populated_text" := by
  unfold wildcardText at h
  by_cases hc : (nodeActive n && isStrB (getProp n "class_type") "ImpactWildcardProcessor" &&
      truthyB (getProp (getProp n "inputs") "populated_text")) = true
  · rcases bool_and_true hc with ⟨hc0, hc2⟩
    rcases bool_and_true hc0 with ⟨hca, hc1⟩
    rw [if_pos hc] at h
    injection h with hv
    exact ⟨hca, by rw [hc1, hc2]; rfl, hv.symm⟩
  · rw [if_neg hc] at h
    cases h

theorem wildcardText_some_truthy (n : JValue) (v : JValue) (h : wildcardText n = some v) :
    truthyB v = true := by
  rcases wildcardText_some_elim n v h with ⟨_, hb, hv⟩
  rcases bool_and_true hb with ⟨_, h2⟩
  rw [hv]
  exact h2

theorem parseStep_ok_prompt_keep (p : Parsed) (n : JValue) (q : Parsed)
    (hn : wildcardText n = none) (hp : truthyB p.prompt = true)
    (h : parseStep p n = .ok q) : q.prompt = p.prompt := by
  unfold parseStep at h
  by_cases ha : (truthyB n && truthyB (getProp n "inputs")) = true
  · rw [if_pos ha] at h
    exact parseNode_ok_prompt_keep _ _ p q (wildcardText_none_elim n hn ha) hp h
  · rw [if_neg ha] at h
    cases h
    rfl

theorem parseStep_ok_wildcard (p : Parsed) (n : JValue) (q : Parsed) (v : JValue)
    (hn : wildcardText n = some v)
    (h : parseStep p n = .ok q) : q.prompt = v := by
  rcases wildcardText_some_elim n v hn with ⟨ha, hb, hv⟩
  have ha2 : (truthyB n && truthyB (getProp n "inputs")) = true := ha
  unfold parseStep at h
  rw [if_pos ha2] at h
  rw [hv]
  exact parseNode_ok_wildcard _ _ p q hb h

theorem runNodes_cons_ok (p : Parsed) (n : JValue) (rest : List JValue) (q : Parsed)
    (h : runNodes p (n :: rest) = .ok q) :
    ∃ p2, parseStep p n = .ok p2 ∧ runNodes p2 rest = .ok q := by
  unfold runNodes at h
  revert h
  cases hs : parseStep p n with
  | error e => intro h; cases h
  | ok p2 => intro h; exact ⟨p2, rfl, h⟩

theorem runNodes_prompt_keep : ∀ (l : List JValue) (p q : Parsed),
    lastWildcardText l = none → truthyB p.prompt = true →
    runNodes p l = .ok q → q.prompt = p.prompt := by
  intro l
  induction l with
  | nil => intro p q _ _ h; cases h; rfl
  | cons n rest ih =>
    intro p q hw hp h
    unfold lastWildcardText at hw
    have hrest : lastWildcardText rest = none := by
      revert hw
      cases lastWildcardText rest with
      | none => intro _; rfl
      | some w => intro hw; cases hw
    rw [hrest] at hw
    rcases runNodes_cons_ok p n rest q h with ⟨p2, hs, hr⟩
    have hp2 : p2.prompt = p.prompt := parseStep_ok_prompt_keep p n p2 hw hp hs
    rw [ih p2 q hrest (by rw [hp2]; exact hp) hr, hp2]

theorem runNodes_wildcard : ∀ (l : List JValue) (p q : Parsed) (v : JValue),
    lastWildcardText l = some v →
    runNodes p l = .ok q → q.prompt = v := by
  intro l
  induction l with
  | nil => intro p q v hw; cases hw
  | cons n rest ih =>
    intro p q v hw h
    rcases runNodes_cons_ok p n rest q h with ⟨p2, hs, hr⟩
    unfold lastWildcardText at hw
    cases hrest : lastWildcardText rest with
    | some w =>
      rw [hrest] at hw
      injection hw with hww
      rw [← hww]
      exact ih p2 q w hrest hr
    | none =>
      rw [hrest] at hw
      have hp2 : p2.prompt = v := parseStep_ok_wildcard p n p2 v hw hs
      have hv : truthyB v = true := wildcardText_some_truthy n v hw
      rw [runNodes_prompt_keep rest p2 q hrest (by rw [hp2]; exact hv) hr, hp2]

/-- Claim C4: whenever extraction produces a record from a graph containing
at least one wildcard-prompt-processor node with truthy populated text, the
extracted prompt is exactly the populated text of the last such node in
declared order — the wildcard branch overwrites any earlier prompt
assignment, and the text-encoder branch (guarded by the prompt being
unset) never replaces it afterwards. -/
theorem c4_wildcard_wins (wd : JValue) (v : JValue)
    (hok : isOkE (parseComfyUIWorkflow wd) = true)
    (hw : lastWildcardText (objValues wd) = some v) :
    (parseComfyUIWorkflow wd).map Parsed.prompt = .ok v := by
  unfold parseComfyUIWorkflow at hok ⊢
  by_cases hg : (!truthyB wd || typeofStr wd != "object") = true
  · exfalso
    cases wd <;> simp_all [objValues, lastWildcardText, truthyB, typeofStr]
  · rw [if_neg hg] at hok ⊢
    revert hok
    cases hr : runNodes {} (objValues wd) with
    | error e => intro hok; cases hok
    | ok q =>
      intro _
      simp only [Except.map]
      rw [runNodes_wildcard (objValues wd) {} q v hw hr]

/-- Witness for C4 at a concrete graph: two text encoders around one
wildcard node; the extracted prompt is the wildcard text. -/
theorem c4_wildcard_wins_witness :
    (parseComfyUIWorkflow c4Graph).map Parsed.prompt = .ok (vStr "wild prompt") :=
  c4_wildcard_wins c4Graph (vStr "wild prompt") rfl rfl

theorem bool_or_false {a b : Bool} (h : (a || b) = false) : a = false ∧ b = false := by
  cases a <;> cases b <;> simp_all

theorem isStrB_ne (v : JValue) (s t : String) (h : isStrB v s = true) (hne : s ≠ t) :
    isStrB v t = false := by
  cases v <;> simp_all [isStrB]

theorem isModelNode_false_elim (n : JValue) (h : isModelNode n = false) (ha : nodeActive n = true) :
    (isStrB (getProp n "class_type") "WanVideoModelLoader" && truthyB (getProp (getProp n "inputs") "model")) = false ∧
    (isStrB (getProp n "class_type") "UnetLoaderGGUF" && truthyB (getProp (getProp n "inputs") "unet_name")) = false ∧
    (isStrB (getProp n "class_type") "CheckpointLoaderSimple" && truthyB (getProp (getProp n "inputs") "ckpt_name")) = false := by
  unfold isModelNode at h
  rw [ha] at h
  simp only [Bool.true_and] at h
  rcases bool_or_false h with ⟨h12, h3⟩
  rcases bool_or_false h12 with ⟨h1, h2⟩
  exact ⟨h1, h2, h3⟩

theorem ggufName_some_elim (n : JValue) (v : JValue) (h : ggufName n = some v) :
    nodeActive n = true ∧
    isStrB (getProp n "class_type") "UnetLoaderGGUF" = true ∧
    truthyB (getProp (getProp n "inputs") "unet_name") = true ∧
    v = getProp (getProp n "inputs") "unet_name" := by
  unfold ggufName at h
  by_cases hc : (nodeActive n && isStrB (getProp n "class_type") "UnetLoaderGGUF" &&
      truthyB (getProp (getProp n "inputs") "unet_name")) = true
  · rcases bool_and_true hc with ⟨hc0, hc2⟩
    rcases bool_and_true hc0 with ⟨hca, hc1⟩
    rw [if_pos hc] at h
    injection h with hv
    exact ⟨hca, hc1, hc2, hv.symm⟩
  · rw [if_neg hc] at h
    cases h

theorem parseNode_ok_model_keep (ct inputs : JValue) (p q : Parsed)
    (h1 : (isStrB ct "WanVideoModelLoader" && truthyB (getProp inputs "model")) = false)
    (h2 : (isStrB ct "UnetLoaderGGUF" && truthyB (getProp inputs "unet_name")) = false)
    (h3 : (isStrB ct "CheckpointLoaderSimple" && truthyB (getProp inputs "ckpt_name")) = false)
    (h : parseNode ct inputs p = .ok q) : q.model = p.model := by
  unfold parseNode at h
  rw [stepModelLoader_skip ct inputs _ h1] at h
  simp only [Except.bind] at h
  rw [stepGGUF_skip ct inputs _ h2] at h
  simp only [Except.map] at h
  injection h with e
  rw [← e, pureSteps_model _ _ _ h3, stepWildcard_model, stepCLIPText_model]

theorem parseNode_ok_gguf_set (ct inputs : JValue) (p q : Parsed) (a : String)
    (hct : isStrB ct "UnetLoaderGGUF" = true)
    (hname : getProp inputs "unet_name" = vStr a) (hat : (a != "") = true)
    (hm : p.model = vNull)
    (h : parseNode ct inputs p = .ok q) : q.model = vStr a := by
  have hml : (isStrB ct "WanVideoModelLoader" && truthyB (getProp inputs "model")) = false := by
    rw [isStrB_ne ct "UnetLoaderGGUF" "WanVideoModelLoader" hct (by decide)]
    rfl
  have hck : (isStrB ct "CheckpointLoaderSimple" && truthyB (getProp inputs "ckpt_name")) = false := by
    rw [isStrB_ne ct "UnetLoaderGGUF" "CheckpointLoaderSimple" hct (by decide)]
    rfl
  have hnt : truthyB (getProp inputs "unet_name") = true := by rw [hname]; exact hat
  have hgg : (isStrB ct "UnetLoaderGGUF" && truthyB (getProp inputs "unet_name")) = true := by
    rw [hct, hnt]
    rfl
  have hwm : (stepWildcard ct inputs (stepCLIPText ct inputs p)).model = vNull := by
    rw [stepWildcard_model, stepCLIPText_model, hm]
  unfold parseNode at h
  rw [stepModelLoader_skip ct inputs _ hml] at h
  simp only [Except.bind] at h
  rw [stepGGUF_set ct inputs _ hgg hwm] at h
  simp only [Except.map] at h
  injection h with e
  rw [← e, pureSteps_model _ _ _ hck]
  exact hname

theorem parseNode_ok_gguf_append (ct inputs : JValue) (p q : Parsed) (a b : String)
    (hct : isStrB ct "UnetLoaderGGUF" = true)
    (hname : getProp inputs "unet_name" = vStr b) (hbt : (b != "") = true)
    (hm : p.model = vStr a) (hat : (a != "") = true)
    (hsub : strContains a b = false)
    (h : parseNode ct inputs p = .ok q) : q.model = vStr (a ++ " + " ++ b) := by
  have hml : (isStrB ct "WanVideoModelLoader" && truthyB (getProp inputs "model")) = false := by
    rw [isStrB_ne ct "UnetLoaderGGUF" "WanVideoModelLoader" hct (by decide)]
    rfl
  have hck : (isStrB ct "CheckpointLoaderSimple" && truthyB (getProp inputs "ckpt_name")) = false := by
    rw [isStrB_ne ct "UnetLoaderGGUF" "CheckpointLoaderSimple" hct (by decide)]
    rfl
  have hwm : (stepWildcard ct inputs (stepCLIPText ct inputs p)).model = vStr a := by
    rw [stepWildcard_model, stepCLIPText_model, hm]
  unfold parseNode at h
  rw [stepModelLoader_skip ct inputs _ hml] at h
  simp only [Except.bind] at h
  rw [stepGGUF_append ct inputs _ a b hct hname hbt hwm hat hsub] at h
  simp only [Except.map] at h
  injection h with e
  rw [← e, pureSteps_model _ _ _ hck]

theorem parseStep_ok_model_keep (p : Parsed) (n : JValue) (q : Parsed)
    (hn : isModelNode n = false)
    (h : parseStep p n = .ok q) : q.model = p.model := by
  unfold parseStep at h
  by_cases ha : (truthyB n && truthyB (getProp n "inputs")) = true
  · rw [if_pos ha] at h
    rcases isModelNode_false_elim n hn ha with ⟨h1, h2, h3⟩
    exact parseNode_ok_model_keep _ _ p q h1 h2 h3 h
  · rw [if_neg ha] at h
    cases h
    rfl

theorem parseStep_ok_gguf_set (p : Parsed) (n : JValue) (q : Parsed) (a : String)
    (hn : ggufName n = some (vStr a)) (hm : p.model = vNull)
    (h : parseStep p n = .ok q) : q.model = vStr a := by
  rcases ggufName_some_elim n (vStr a) hn with ⟨ha, hct, hnt, hv⟩
  have ha2 : (truthyB n && truthyB (getProp n "inputs")) = true := ha
  unfold parseStep at h
  rw [if_pos ha2] at h
  exact parseNode_ok_gguf_set _ _ p q a hct hv.symm (by rw [← hv] at hnt; exact hnt) hm h

theorem parseStep_ok_gguf_append (p : Parsed) (n : JValue) (q : Parsed) (a b : String)
    (hn : ggufName n = some (vStr b)) (hm : p.model = vStr a) (hat : (a != "") = true)
    (hsub : strContains a b = false)
    (h : parseStep p n = .ok q) : q.model = vStr (a ++ " + " ++ b) := by
  rcases ggufName_some_elim n (vStr b) hn with ⟨ha, hct, hnt, hv⟩
  have ha2 : (truthyB n && truthyB (getProp n "inputs")) = true := ha
  unfold parseStep at h
  rw [if_pos ha2] at h
  exact parseNode_ok_gguf_append _ _ p q a b hct hv.symm (by rw [← hv] at hnt; exact hnt) hm hat hsub h

theorem runNodes_model_keep : ∀ (l : List JValue) (p q : Parsed),
    l.filter isModelNode = [] → runNodes p l = .ok q → q.model = p.model := by
  intro l
  induction l with
  | nil => intro p q _ h; cases h; rfl
  | cons n rest ih =>
    intro p q hf h
    rw [List.filter_cons] at hf
    rcases runNodes_cons_ok p n rest q h with ⟨p2, hs, hr⟩
    by_cases hm : isModelNode n = true
    · simp [hm] at hf
    · rw [if_neg (by simp [hm])] at hf
      rw [ih p2 q hf hr,
        parseStep_ok_model_keep p n p2 (Bool.eq_false_iff.mpr hm) hs]

theorem runNodes_model_one : ∀ (l : List JValue) (p q : Parsed) (n2 : JValue) (a b : String),
    l.filter isModelNode = [n2] → ggufName n2 = some (vStr b) →
    p.model = vStr a → (a != "") = true → strContains a b = false →
    runNodes p l = .ok q → q.model = vStr (a ++ " + " ++ b) := by
  intro l
  induction l with
  | nil => intro p q n2 a b hf _ _ _ _ _; simp at hf
  | cons n rest ih =>
    intro p q n2 a b hf hgn hm hat hsub h
    rw [List.filter_cons] at hf
    rcases runNodes_cons_ok p n rest q h with ⟨p2, hs, hr⟩
    by_cases hmn : isModelNode n = true
    · rw [if_pos (by simp [hmn])] at hf
      injection hf with he hrest
      subst he
      have hp2 : p2.model = vStr (a ++ " + " ++ b) :=
        parseStep_ok_gguf_append p n p2 a b hgn hm hat hsub hs
      rw [runNodes_model_keep rest p2 q hrest hr, hp2]
    · rw [if_neg (by simp [hmn])] at hf
      have hp2 : p2.model = vStr a := by
        rw [parseStep_ok_model_keep p n p2 (Bool.eq_false_iff.mpr hmn) hs, hm]
      exact ih p2 q n2 a b hf hgn hp2 hat hsub hr

theorem runNodes_model_two : ∀ (l : List JValue) (p q : Parsed) (n1 n2 : JValue) (a b : String),
    l.filter isModelNode = [n1, n2] →
    ggufName n1 = some (vStr a) → ggufName n2 = some (vStr b) →
    strContains a b = false → p.model = vNull →
    runNodes p l = .ok q → q.model = vStr (a ++ " + " ++ b) := by
  intro l
  induction l with
  | nil => intro p q n1 n2 a b hf _ _ _ _ _; simp at hf
  | cons n rest ih =>
    intro p q n1 n2 a b hf hg1 hg2 hsub hm h
    rw [List.filter_cons] at hf
    rcases runNodes_cons_ok p n rest q h with ⟨p2, hs, hr⟩
    by_cases hmn : isModelNode n = true
    · rw [if_pos (by simp [hmn])] at hf
      injection hf with he hrest
      subst he
      have hp2 : p2.model = vStr a := parseStep_ok_gguf_set p n p2 a hg1 hm hs
      have hat : (a != "") = true := by
        rcases ggufName_some_elim n (vStr a) hg1 with ⟨_, _, hnt, hv⟩
        rw [← hv] at hnt
        exact hnt
      exact runNodes_model_one rest p2 q n2 a b hrest hg2 hp2 hat hsub hr
    · rw [if_neg (by simp [hmn])] at hf
      have hp2 : p2.model = vNull := by
        rw [parseStep_ok_model_keep p n p2 (Bool.eq_false_iff.mpr hmn) hs, hm]
      exact ih p2 q n1 n2 a b hf hg1 hg2 hsub hp2 hr

/-- Counterexample to claim C7 as stated: the graph `c7cGraph` holds
exactly two quantized-unet loader nodes with distinct names "ab" and "a",
neither containing "HIGH", and no other model-setting nodes, yet the
extracted model is "ab" and not "ab + a" — the containment check
(`includes` is a substring test) suppresses the concatenation because the
second name is a substring of the first. -/
theorem c7_counterexample :
    (parseComfyUIWorkflow c7cGraph).map Parsed.model = .ok (vStr "ab")
    ∧ ("ab" : String) ≠ "a"
    ∧ strContains "ab" "HIGH" = false ∧ strContains "a" "HIGH" = false
    ∧ ("ab" : String) ≠ "ab" ++ " + " ++ "a" :=
  ⟨rfl, by decide, by decide, by decide, by decide⟩

/-- Claim C7, amended: for every graph whose model-writing nodes are
exactly two quantized-unet loader nodes, with string unet names, neither
containing "HIGH", distinct, and the second name not a substring of the
first (not merely distinct — the source checks containment, not equality),
the extracted model is the concatenation first-name + " + " + second-name,
the first name being that of the node encountered first in declared
order. -/
theorem c7_gguf_concatenation (wd n1 n2 : JValue) (a b : String)
    (hfilter : (objValues wd).filter isModelNode = [n1, n2])
    (h1 : ggufName n1 = some (vStr a)) (h2 : ggufName n2 = some (vStr b))
    (hha : strContains a "HIGH" = false) (hhb : strContains b "HIGH" = false)
    (hne : a ≠ b) (hsub : strContains a b = false)
    (hok : isOkE (parseComfyUIWorkflow wd) = true) :
    (parseComfyUIWorkflow wd).map Parsed.model = .ok (vStr (a ++ " + " ++ b)) := by
  unfold parseComfyUIWorkflow at hok ⊢
  by_cases hg : (!truthyB wd || typeofStr wd != "object") = true
  · exfalso
    cases wd <;> simp_all [objValues, truthyB, typeofStr]
  · rw [if_neg hg] at hok ⊢
    revert hok
    cases hr : runNodes {} (objValues wd) with
    | error e => intro hok; cases hok
    | ok q =>
      intro _
      simp only [Except.map]
      rw [runNodes_model_two (objValues wd) {} q n1 n2 a b hfilter h1 h2 hsub rfl hr]

/-- Witness for the amended C7 at the two-loader graph with names
"modelA" and "modelB". -/
theorem c7_gguf_concatenation_witness :
    (parseComfyUIWorkflow c7Graph).map Parsed.model = .ok (vStr ("modelA" ++ " + " ++ "modelB")) :=
  c7_gguf_concatenation c7Graph c7n1 c7n2 "modelA" "modelB" rfl rfl rfl rfl rfl (by decide) rfl rfl

/-- Claim C3. The reference scenario: node "1" holds the string
"A cat sits." and node "2" is a text encoder whose text field is the
two-element reference tuple. The extractor leaves the prompt null: its
text-encoder branch accepts only `typeof text === "string"` values and no
reference resolution exists in `parseComfyUIWorkflow`, although the
repository test (test_prompt_extraction.js) asserts exactly this
resolution and the client parser resolves references for the steps field
only. The conjuncts record the failing input shape. -/
theorem c3_reference_not_resolved :
    (parseComfyUIWorkflow c3Graph).map Parsed.prompt = .ok vNull
    ∧ getProp (getProp (getProp c3Graph "2") "inputs") "text" = vArr [vStr "1", vNum 0]
    ∧ getProp (getProp (getProp c3Graph "1") "inputs") "value" = vStr "A cat sits." :=
  ⟨rfl, rfl, rfl⟩

/-- Counterexample to claim C8 as stated. First, `c8cGraph` holds one
text-encoder node whose string text contains the configured negative
marker "worst quality", yet neither negativePrompt nor prompt is assigned
— the negative-prompt branch of the source checks only the CJK marker.
Second, `c8cGraph2` holds a text encoder whose text contains the CJK
marker "低质量" but is reached after an earlier text encoder has set the
prompt, and negativePrompt again stays null — the whole branch is guarded
by the prompt being unset. -/
theorem c8_counterexample :
    ((parseComfyUIWorkflow c8cGraph).map Parsed.negativePrompt = .ok vNull
    ∧ (parseComfyUIWorkflow c8cGraph).map Parsed.prompt = .ok vNull
    ∧ strContains "worst quality, blurry" "worst quality" = true)
    ∧ ((parseComfyUIWorkflow c8cGraph2).map Parsed.negativePrompt = .ok vNull
    ∧ (parseComfyUIWorkflow c8cGraph2).map Parsed.prompt = .ok (vStr "a clean scenic photo text")
    ∧ strContains "低质量, blurry" "低质量" = true) :=
  ⟨⟨rfl, rfl, by decide⟩, ⟨rfl, rfl, by decide⟩⟩

/-- Claim C8, amended: a text-encoder node whose string text contains a
configured negative marker ("低质量" or "worst quality") never assigns the
prompt; and the node modifies negativePrompt exactly when the node class
matches, the prompt is still unset, and the text contains "低质量", the
new value then being that text. The third conjunct is the necessity
direction: any change of negativePrompt implies all of these conditions —
so a text containing only "worst quality" is assigned to neither member,
and a node reached with the prompt already set assigns nothing. -/
theorem c8_negative_marker (ct inputs : JValue) (p : Parsed) (t : String)
    (htext : getProp inputs "text" = vStr t)
    (hmark : (strContains t "低质量" || strContains t "worst quality") = true) :
    (stepCLIPText ct inputs p).prompt = p.prompt
    ∧ (isStrB ct "CLIPTextEncode" = true → truthyB p.prompt = false →
        strContains t "低质量" = true →
        (stepCLIPText ct inputs p).negativePrompt = vStr t)
    ∧ ((stepCLIPText ct inputs p).negativePrompt ≠ p.negativePrompt →
        isStrB ct "CLIPTextEncode" = true ∧ truthyB p.prompt = false ∧
        strContains t "低质量" = true ∧
        (stepCLIPText ct inputs p).negativePrompt = vStr t) := by
  have hcond : (decide (t.length > 10) && !strContains t "低质量" && !strContains t "worst quality") = false := by
    rcases (Bool.or_eq_true _ _).mp hmark with hx | hx
    · rw [hx]
      simp
    · rw [hx]
      simp
  have key : (stepCLIPText ct inputs p).negativePrompt = p.negativePrompt ∨
      (isStrB ct "CLIPTextEncode" = true ∧ truthyB p.prompt = false ∧
       strContains t "低质量" = true ∧ (stepCLIPText ct inputs p).negativePrompt = vStr t) := by
    simp only [stepCLIPText, htext]
    by_cases hg : (isStrB ct "CLIPTextEncode" && truthyB (vStr t) && !truthyB p.prompt) = true
    · rw [if_pos hg, hcond]
      simp only [Bool.false_eq_true, if_false]
      by_cases hz : strContains t "低质量" = true
      · rw [if_pos hz]
        right
        rcases bool_and_true hg with ⟨hg1, hg3⟩
        rcases bool_and_true hg1 with ⟨hctE, _⟩
        exact ⟨hctE, by simpa using hg3, hz, rfl⟩
      · rw [if_neg hz]
        left
        rfl
    · rw [if_neg hg]
      left
      rfl
  refine ⟨?_, ?_, ?_⟩
  · simp only [stepCLIPText, htext]
    by_cases hg : (isStrB ct "CLIPTextEncode" && truthyB (vStr t) && !truthyB p.prompt) = true
    · rw [if_pos hg, hcond]
      simp only [Bool.false_eq_true, if_false]
      by_cases hz : strContains t "低质量" = true
      · rw [if_pos hz]
      · rw [if_neg hz]
    · rw [if_neg hg]
  · intro hct hp hz
    have ht : (t != "") = true := by
      rcases Bool.eq_false_or_eq_true (t != "") with h1 | h1
      · exact h1
      · exfalso
        have : t = "" := by simpa using h1
        rw [this] at hz
        exact absurd hz (by decide)
    have hg2 : (isStrB ct "CLIPTextEncode" && truthyB (vStr t) && !truthyB p.prompt) = true := by
      rw [hct, hp]
      simp only [truthyB, ht, Bool.and_true, Bool.true_and, Bool.not_false]
    simp only [stepCLIPText, htext, hg2, if_true, hz, Bool.not_true, Bool.and_false, Bool.false_and,
      Bool.false_eq_true, if_false]
  · intro hchange
    rcases key with hk | hk
    · exact absurd hk hchange
    · exact hk

/-- Witness for the amended C8: a text encoder with the CJK-marker text
assigns it to negativePrompt and leaves the prompt untouched. -/
theorem c8_negative_marker_witness :
    ((stepCLIPText (vStr "CLIPTextEncode") c8inputs {}).prompt = ({} : Parsed).prompt
    ∧ (isStrB (vStr "CLIPTextEncode") "CLIPTextEncode" = true →
        truthyB ({} : Parsed).prompt = false →
        strContains "低质量, blurry, bad hands" "低质量" = true →
        (stepCLIPText (vStr "CLIPTextEncode") c8inputs {}).negativePrompt = vStr "低质量, blurry, bad hands")
    ∧ ((stepCLIPText (vStr "CLIPTextEncode") c8inputs {}).negativePrompt ≠ ({} : Parsed).negativePrompt →
        isStrB (vStr "CLIPTextEncode") "CLIPTextEncode" = true ∧
        truthyB ({} : Parsed).prompt = false ∧
        strContains "低质量, blurry, bad hands" "低质量" = true ∧
        (stepCLIPText (vStr "CLIPTextEncode") c8inputs {}).negativePrompt = vStr "低质量, blurry, bad hands"))
    ∧ (stepCLIPText (vStr "CLIPTextEncode") c8inputs {}).negativePrompt = vStr "低质量, blurry, bad hands" :=
  ⟨c8_negative_marker (vStr "CLIPTextEncode") c8inputs {} "低质量, blurry, bad hands" rfl (by decide),
   rfl⟩

/-- Claim C10: a LoRA-selector node (either kind) with a truthy non-"none"
lora name whose strength field is present but zero, with the alternate
strength_0 field zero or absent, appends a LoraEntry of strength 1.0 — the
falsy-based fallback `strength || strength_0 || 1.0` treats an explicit
zero like an absent field; likewise the standard lora-loader kinds with
`strength_model || strength_clip || 1.0`. -/
theorem c10_zero_strength_fallback (ct ct2 inputs inputs2 : JValue) (p q : Parsed) (nm nm2 : JValue)
    (hct : (isStrB ct "WanVideoLoraSelect" || isStrB ct "WanVideoLoraSelectMulti") = true)
    (hn : getProp inputs "lora" = nm) (hnt : truthyB nm = true) (hnone : isStrB nm "none" = false)
    (hs : getProp inputs "strength" = vNum 0)
    (hs0 : getProp inputs "strength_0" = vNum 0 ∨ getProp inputs "strength_0" = vUndef)
    (hct2 : (isStrB ct2 "LoraLoader" || isStrB ct2 "LoraLoaderModelOnly") = true)
    (hn2 : getProp inputs2 "lora_name" = nm2) (hnt2 : truthyB nm2 = true)
    (hm : getProp inputs2 "strength_model" = vNum 0)
    (hc : getProp inputs2 "strength_clip" = vNum 0 ∨ getProp inputs2 "strength_clip" = vUndef) :
    (stepWanLora ct inputs p).loras = p.loras ++ [⟨nm, vNum 1⟩]
    ∧ (stepLoraLoader ct2 inputs2 q).loras = q.loras ++ [⟨nm2, vNum 1⟩] := by
  have st1 : jsOr (getProp inputs "strength") (jsOr (getProp inputs "strength_0") (vNum 1)) = vNum 1 := by
    rw [hs]
    rcases hs0 with h0 | h0 <;> rw [h0] <;> rfl
  have st2 : jsOr (getProp inputs2 "strength_model") (jsOr (getProp inputs2 "strength_clip") (vNum 1)) = vNum 1 := by
    rw [hm]
    rcases hc with h0 | h0 <;> rw [h0] <;> rfl
  constructor
  · simp only [stepWanLora, hn, hct, hnt, Bool.and_self, if_true, hnone, Bool.not_false, st1]
  · simp only [stepLoraLoader, hn2, hct2, hnt2, Bool.and_self, if_true, st2]

/-- Witness for C10 at concrete LoRA nodes with explicit zero strengths. -/
theorem c10_zero_strength_fallback_witness :
    (stepWanLora (vStr "WanVideoLoraSelect") c10wanInputs {}).loras =
      ({} : Parsed).loras ++ [⟨vStr "styleLora.safetensors", vNum 1⟩]
    ∧ (stepLoraLoader (vStr "LoraLoader") c10stdInputs {}).loras =
      ({} : Parsed).loras ++ [⟨vStr "detailLora.safetensors", vNum 1⟩] :=
  c10_zero_strength_fallback (vStr "WanVideoLoraSelect") (vStr "LoraLoader") c10wanInputs c10stdInputs
    {} {} (vStr "styleLora.safetensors") (vStr "detailLora.safetensors")
    rfl rfl rfl rfl rfl (Or.inr rfl) rfl rfl rfl rfl (Or.inl rfl)

end ClipManager
